import Mathlib

/-!
# AT45DBxx SPI DataFlash driver (`45dbxx.c`): shallow embedding

The driver talks to the chip through three external primitives: the chip-select
pin (`HAL_GPIO_WritePin`), the one-byte full-duplex exchange
(`HAL_SPI_TransmitReceive`, wrapped by `AT45_Spi`) and the block transfers
`HAL_SPI_Transmit` / `HAL_SPI_Receive`.  The chip is an arbitrary state machine
`Device σ`; the driver functions thread a `World σ` holding the chip state, the
global descriptor `AT45`, the millisecond tick and a log of everything that
happened on the bus.  Machine integers are `Nat` with explicit reductions modulo
`2^8`, `2^16` and `2^32` at the places where the C code converts.

Busy-wait loops (`while (AT45_IsBusy());`) take a bound on the number of polls
and return `none` when the bound is reached while the chip is still busy.

Two concrete chips are used: `scripted`, which answers with a fixed list of
bytes, and `refChip`, a reference model that stores bytes by linear address and
executes page erase, program and array read.
-/

namespace AT45DB

/-! ## Command codes, masks and status bits (`45dbxx.c`, lines 38-127) -/

abbrev AT45DB_RDARRAYHF : Nat := 0x0B
abbrev AT45DB_PGERASE : Nat := 0x81
abbrev AT45DB_CHIPERASE1 : Nat := 0xC7
abbrev AT45DB_CHIPERASE2 : Nat := 0x94
abbrev AT45DB_CHIPERASE3 : Nat := 0x80
abbrev AT45DB_CHIPERASE4 : Nat := 0x9A
abbrev AT45DB_MNTHRUBF1 : Nat := 0x82
abbrev AT45DB_PWRDOWN : Nat := 0xB9
abbrev AT45DB_RESUME : Nat := 0xAB
abbrev AT45DB_RDSR : Nat := 0xD7
abbrev AT45DB_RDDEVID : Nat := 0x9F

abbrev AT45DB_MANUFACTURER : Nat := 0x1F
abbrev AT45DB_DEVID1_CAPMSK : Nat := 0x1F
abbrev AT45DB_DEVID1_1MBIT : Nat := 0x02
abbrev AT45DB_DEVID1_2MBIT : Nat := 0x03
abbrev AT45DB_DEVID1_4MBIT : Nat := 0x04
abbrev AT45DB_DEVID1_8MBIT : Nat := 0x05
abbrev AT45DB_DEVID1_16MBIT : Nat := 0x06
abbrev AT45DB_DEVID1_32MBIT : Nat := 0x07
abbrev AT45DB_DEVID1_64MBIT : Nat := 0x08
abbrev AT45DB_DEVID1_FAMMSK : Nat := 0xE0
abbrev AT45DB_DEVID1_DFLASH : Nat := 0x20
abbrev AT45DB_DEVID1_AT26DF : Nat := 0x40

abbrev AT45DB_SR_RDY : Nat := 1 <<< 7

/-! ## Data model -/

/-- Geometry descriptor `AT45_t` of `45dbxx.h` (`uint8_t FlashSize_MBit`,
`uint16_t PageSize`, `uint16_t Pages`, `uint8_t Shift`). -/
structure AT45_t where
  FlashSize_MBit : Nat
  PageSize : Nat
  Pages : Nat
  Shift : Nat
deriving DecidableEq, Repr

/-- Value of the global `AT45_t AT45;` at program start: a C object with static
storage duration and no initialiser is zero-initialised. -/
def AT45_zero : AT45_t :=
  { FlashSize_MBit := 0, PageSize := 0, Pages := 0, Shift := 0 }

/-- One thing that happened on the bus.  `cs false` is chip-select driven low
(`GPIO_PIN_RESET`, chip selected), `cs true` is chip-select released
(`GPIO_PIN_SET`); `spi tx rx` is one byte sent while `rx` is clocked back;
`recv rx` is one byte clocked in by `HAL_SPI_Receive`. -/
inductive BusEvent where
  | cs (high : Bool)
  | spi (tx rx : Nat)
  | recv (rx : Nat)
deriving DecidableEq, Repr

/-- The attached chip as a state machine over the three bus primitives.  What the
HAL puts on MOSI during `HAL_SPI_Receive` is not decided by this driver, so that
primitive has an entry of its own. -/
structure Device (σ : Type) where
  cs : σ → Bool → σ
  exchange : σ → Nat → σ × Nat
  clockIn : σ → σ × Nat

/-- Everything the driver reads or writes: the chip, the global `AT45`, the bus
log and the HAL millisecond tick. -/
structure World (σ : Type) where
  chip : σ
  AT45 : AT45_t
  trace : List BusEvent
  tick : Nat
deriving DecidableEq

/-- A chip that answers with a fixed script of bytes, whatever it is sent; once
the script is exhausted every byte reads `0` (the initial value of `ret` in
`AT45_Spi`). -/
def scripted : Device (List Nat) where
  cs s _ := s
  exchange s _ := (s.tail, s.headD 0)
  clockIn s := (s.tail, s.headD 0)

/-- A world at program start (zero descriptor, empty log) in front of a
scripted chip. -/
def startWorld (script : List Nat) : World (List Nat) :=
  { chip := script, AT45 := AT45_zero, trace := [], tick := 0 }

/-! ## External primitives -/

variable {σ : Type}

/-- `HAL_GPIO_WritePin(_45DBXX_CS_GPIO, _45DBXX_CS_PIN, level)`. -/
def HAL_GPIO_WritePin (d : Device σ) (w : World σ) (high : Bool) : World σ :=
  { w with chip := d.cs w.chip high, trace := w.trace ++ [BusEvent.cs high] }

/-- `HAL_GetTick()`. -/
def HAL_GetTick (w : World σ) : Nat := w.tick

/-- `_45DBXX_DELAY(x)`, i.e. `osDelay(x)`: the tick advances by `x`. -/
def osDelay (w : World σ) (x : Nat) : World σ :=
  { w with tick := w.tick + x }

/-- `HAL_SPI_Transmit(&hspi1, buf, size, 100)`: bytes `buf[0..size)` go out one
after the other; what comes back is dropped.  `i` is the index of the next
byte and `n` the number still to send; past the end of the caller's list the
model reads `0`. -/
def HAL_SPI_Transmit_from (d : Device σ) (buf : List Nat) : Nat → Nat → World σ → World σ
  | _, 0, w => w
  | i, n + 1, w =>
    let r := d.exchange w.chip (buf.getD i 0 % 256)
    HAL_SPI_Transmit_from d buf (i + 1) n
      { w with chip := r.1,
               trace := w.trace ++ [BusEvent.spi (buf.getD i 0 % 256) (r.2 % 256)] }

/-- `HAL_SPI_Transmit(&hspi1, buf, size, 100)`. -/
def HAL_SPI_Transmit (d : Device σ) (w : World σ) (buf : List Nat) (size : Nat) : World σ :=
  HAL_SPI_Transmit_from d buf 0 size w

/-- `HAL_SPI_Receive(&hspi1, buf, size, 100)`: clocks `size` bytes in and
returns them in order, with the world after the transfer. -/
def HAL_SPI_Receive (d : Device σ) : Nat → World σ → List Nat × World σ
  | 0, w => ([], w)
  | n + 1, w =>
    let r := d.clockIn w.chip
    let rest := HAL_SPI_Receive d n
      { w with chip := r.1, trace := w.trace ++ [BusEvent.recv (r.2 % 256)] }
    ((r.2 % 256) :: rest.1, rest.2)

/-! ## The driver (`45dbxx.c`, lines 133-387) -/

/-- `uint8_t AT45_Spi(uint8_t data)`: one byte out, one byte back. -/
def AT45_Spi (d : Device σ) (w : World σ) (data : Nat) : Nat × World σ :=
  let r := d.exchange w.chip (data % 256)
  (r.2 % 256,
   { w with chip := r.1, trace := w.trace ++ [BusEvent.spi (data % 256) (r.2 % 256)] })

/-- `uint16_t AT45_ReadStatus(void)`. -/
def AT45_ReadStatus (d : Device σ) (w : World σ) : Nat × World σ :=
  let w1 := HAL_GPIO_WritePin d w false
  let r0 := AT45_Spi d w1 AT45DB_RDSR
  let status1 := AT45_Spi d r0.2 0x00
  let status2 := AT45_Spi d status1.2 0x00
  let w2 := HAL_GPIO_WritePin d status2.2 true
  ((((status2.1 &&& 0xFF) <<< 8) ||| (status1.1 &&& 0xFF)) % 65536, w2)

/-- `bool AT45_IsBusy(void)`. -/
def AT45_IsBusy (d : Device σ) (w : World σ) : Bool × World σ :=
  let r := AT45_ReadStatus d w
  (decide (r.1 &&& AT45DB_SR_RDY = 0), r.2)

/-- The loop `while (AT45_IsBusy());` with at most `fuel` polls. -/
def waitWhileBusy (d : Device σ) : Nat → World σ → Option (World σ)
  | 0, _ => none
  | fuel + 1, w =>
    let r := AT45_IsBusy d w
    if r.1 then waitWhileBusy d fuel r.2 else some r.2

/-- `void AT45_Resume(void)`. -/
def AT45_Resume (d : Device σ) (fuel : Nat) (w : World σ) : Option (World σ) :=
  let w1 := HAL_GPIO_WritePin d w false
  let w2 := (AT45_Spi d w1 AT45DB_RESUME).2
  let w3 := HAL_GPIO_WritePin d w2 true
  waitWhileBusy d fuel w3

/-- `void AT45_PowerDown(void)`. -/
def AT45_PowerDown (d : Device σ) (w : World σ) : World σ :=
  let w1 := HAL_GPIO_WritePin d w false
  let w2 := (AT45_Spi d w1 AT45DB_PWRDOWN).2
  HAL_GPIO_WritePin d w2 true

/-- The loop `while (HAL_GetTick() < 20) { _45DBXX_DELAY(10); }` of `AT45_Init`,
run for at most the given number of passes. -/
def settleLoop : Nat → World σ → World σ
  | 0, w => w
  | n + 1, w => if HAL_GetTick w < 20 then settleLoop n (osDelay w 10) else w

/-- The `switch (prdID & AT45DB_DEVID1_CAPMSK)` of `AT45_Init` (lines 192-298):
the descriptor after the switch, given the descriptor before it.  The switch has
no `default:` label. -/
def AT45_Init_switch (g : AT45_t) (prdID edi : Nat) : AT45_t :=
  let c := prdID &&& AT45DB_DEVID1_CAPMSK
  if c = AT45DB_DEVID1_1MBIT then
    if edi &&& 0x01 ≠ 0 then { FlashSize_MBit := 1, Pages := 512, Shift := 8, PageSize := 256 }
    else { FlashSize_MBit := 1, Pages := 512, Shift := 9, PageSize := 264 }
  else if c = AT45DB_DEVID1_2MBIT then
    if edi &&& 0x01 ≠ 0 then { FlashSize_MBit := 2, Pages := 1024, Shift := 8, PageSize := 256 }
    else { FlashSize_MBit := 2, Pages := 1024, Shift := 9, PageSize := 264 }
  else if c = AT45DB_DEVID1_4MBIT then
    if edi &&& 0x01 ≠ 0 then { FlashSize_MBit := 4, Pages := 2048, Shift := 8, PageSize := 256 }
    else { FlashSize_MBit := 4, Pages := 2048, Shift := 9, PageSize := 264 }
  else if c = AT45DB_DEVID1_8MBIT then
    if edi &&& 0x01 ≠ 0 then { FlashSize_MBit := 8, Pages := 4096, Shift := 8, PageSize := 256 }
    else { FlashSize_MBit := 8, Pages := 4096, Shift := 9, PageSize := 264 }
  else if c = AT45DB_DEVID1_16MBIT then
    if edi &&& 0x01 ≠ 0 then { FlashSize_MBit := 16, Pages := 4096, Shift := 9, PageSize := 512 }
    else { FlashSize_MBit := 16, Pages := 4096, Shift := 10, PageSize := 528 }
  else if c = AT45DB_DEVID1_32MBIT then
    if edi &&& 0x01 ≠ 0 then { FlashSize_MBit := 32, Pages := 8192, Shift := 9, PageSize := 512 }
    else { FlashSize_MBit := 32, Pages := 8192, Shift := 10, PageSize := 528 }
  else if c = AT45DB_DEVID1_64MBIT then
    if edi &&& 0x01 ≠ 0 then { FlashSize_MBit := 64, Pages := 8192, Shift := 10, PageSize := 1024 }
    else { FlashSize_MBit := 64, Pages := 8192, Shift := 11, PageSize := 1056 }
  else g

/-- `bool AT45_Init(void)`.  Two passes of the settle loop are always enough,
since each pass advances the tick by 10 (`settleLoop_two`). -/
def AT45_Init (d : Device σ) (w : World σ) : Bool × World σ :=
  let w0 := HAL_GPIO_WritePin d w true
  let w1 := settleLoop 2 w0
  let w2 := HAL_GPIO_WritePin d w1 false
  let r0 := AT45_Spi d w2 AT45DB_RDDEVID
  let mnfID := AT45_Spi d r0.2 0x00
  let prdID := AT45_Spi d mnfID.2 0x00
  let r3 := AT45_Spi d prdID.2 0x00
  let r4 := AT45_Spi d r3.2 0x00
  let edi := AT45_Spi d r4.2 0x00
  let w3 := HAL_GPIO_WritePin d edi.2 true
  if mnfID.1 = AT45DB_MANUFACTURER then
    if prdID.1 &&& AT45DB_DEVID1_FAMMSK = AT45DB_DEVID1_DFLASH then
      (true, { w3 with AT45 := AT45_Init_switch w3.AT45 prdID.1 edi.1 })
    else
      (true, w3)
  else
    (false, w3)

/-- `void AT45_EraseChip(void)`. -/
def AT45_EraseChip (d : Device σ) (fuel : Nat) (w : World σ) : Option (World σ) :=
  (AT45_Resume d fuel w).bind fun w1 =>
    let w2 := HAL_GPIO_WritePin d w1 false
    let w3 := (AT45_Spi d w2 AT45DB_CHIPERASE1).2
    let w4 := (AT45_Spi d w3 AT45DB_CHIPERASE2).2
    let w5 := (AT45_Spi d w4 AT45DB_CHIPERASE3).2
    let w6 := (AT45_Spi d w5 AT45DB_CHIPERASE4).2
    let w7 := HAL_GPIO_WritePin d w6 true
    waitWhileBusy d fuel w7

/-- `void AT45_ErasePage(uint16_t page)`.  `((uint32_t)page) << AT45.Shift` is
taken modulo `2^32`: bits shifted past bit 31 are lost.  (`AT45_Init` only ever
stores shifts 8 to 11; for a shift of 32 or more C leaves the result undefined
and the model yields 0.) -/
def AT45_ErasePage (d : Device σ) (fuel : Nat) (w : World σ) (page : Nat) : Option (World σ) :=
  let page := page % 65536
  let addr := (page <<< w.AT45.Shift) % 2 ^ 32
  (AT45_Resume d fuel w).bind fun w1 =>
    let w2 := HAL_GPIO_WritePin d w1 false
    let w3 := (AT45_Spi d w2 AT45DB_PGERASE).2
    let w4 := (AT45_Spi d w3 ((addr >>> 16) % 256)).2
    let w5 := (AT45_Spi d w4 ((addr >>> 8) % 256)).2
    let w6 := (AT45_Spi d w5 (addr % 256)).2
    let w7 := HAL_GPIO_WritePin d w6 true
    waitWhileBusy d fuel w7

/-- `void AT45_WritePage(uint16_t page, uint16_t offset, uint16_t size, uint8_t *buf)`. -/
def AT45_WritePage (d : Device σ) (fuel : Nat) (w : World σ)
    (page offset size : Nat) (buf : List Nat) : Option (World σ) :=
  let page := page % 65536
  let offset := offset % 65536
  let size := size % 65536
  let size := if size > w.AT45.PageSize then w.AT45.PageSize else size
  let addr := ((page <<< w.AT45.Shift) % 2 ^ 32 + offset) % 2 ^ 32
  (AT45_Resume d fuel w).map fun w1 =>
    let w2 := HAL_GPIO_WritePin d w1 false
    let w3 := (AT45_Spi d w2 AT45DB_MNTHRUBF1).2
    let w4 := (AT45_Spi d w3 ((addr >>> 16) % 256)).2
    let w5 := (AT45_Spi d w4 ((addr >>> 8) % 256)).2
    let w6 := (AT45_Spi d w5 (addr % 256)).2
    let w7 := HAL_SPI_Transmit d w6 buf size
    HAL_GPIO_WritePin d w7 true

/-- `void AT45_ReadPage(uint16_t page, uint16_t offset, uint16_t size, uint8_t *buf)`.
The result carries the caller's buffer after the call: the bytes received,
followed by the part of `buf` that was not overwritten. -/
def AT45_ReadPage (d : Device σ) (fuel : Nat) (w : World σ)
    (page offset size : Nat) (buf : List Nat) : Option (List Nat × World σ) :=
  let page := page % 65536
  let offset := offset % 65536
  let size := size % 65536
  let size := if size > w.AT45.PageSize then w.AT45.PageSize else size
  let addr := ((page <<< w.AT45.Shift) % 2 ^ 32 + offset) % 2 ^ 32
  (AT45_Resume d fuel w).map fun w1 =>
    let w2 := HAL_GPIO_WritePin d w1 false
    let w3 := (AT45_Spi d w2 AT45DB_RDARRAYHF).2
    let w4 := (AT45_Spi d w3 ((addr >>> 16) % 256)).2
    let w5 := (AT45_Spi d w4 ((addr >>> 8) % 256)).2
    let w6 := (AT45_Spi d w5 (addr % 256)).2
    let w7 := (AT45_Spi d w6 0).2
    let r := HAL_SPI_Receive d size w7
    (r.1 ++ buf.drop size, HAL_GPIO_WritePin d r.2 true)

/-! ## LittleFS glue (`45dbxx.c`, lines 364-387)

`lfs_block_t`, `lfs_off_t` and `lfs_size_t` are `uint32_t`; the configuration
pointer `c` is not used by any of the four functions and is left out. -/

/-- `int block_device_read(c, block, off, buffer, size)`. -/
def block_device_read (d : Device σ) (fuel : Nat) (w : World σ)
    (block off : Nat) (buffer : List Nat) (size : Nat) : Option (Int × List Nat × World σ) :=
  (AT45_ReadPage d fuel w ((block % 2 ^ 32) % 65536) ((off % 2 ^ 32) % 65536)
      ((size % 2 ^ 32) % 65536) buffer).map fun r => (0, r.1, r.2)

/-- `int block_device_prog(c, block, off, buffer, size)`. -/
def block_device_prog (d : Device σ) (fuel : Nat) (w : World σ)
    (block off : Nat) (buffer : List Nat) (size : Nat) : Option (Int × World σ) :=
  (AT45_WritePage d fuel w ((block % 2 ^ 32) % 65536) ((off % 2 ^ 32) % 65536)
      ((size % 2 ^ 32) % 65536) buffer).map fun w1 => (0, w1)

/-- `int block_device_erase(c, block)`. -/
def block_device_erase (d : Device σ) (fuel : Nat) (w : World σ)
    (block : Nat) : Option (Int × World σ) :=
  (AT45_ErasePage d fuel w ((block % 2 ^ 32) % 65536)).map fun w1 => (0, w1)

/-- `int block_device_sync(c)`. -/
def block_device_sync (w : World σ) : Int × World σ := (0, w)

/-! ## Vocabulary of the specification -/

/-- The geometry table as documented: (capacity code, extended-data low bit)
to (Pages, PageSize, Shift). -/
def documentedTable : List ((Nat × Nat) × (Nat × Nat × Nat)) :=
  [((0x02, 0), (512, 264, 9)), ((0x02, 1), (512, 256, 8)),
   ((0x03, 0), (1024, 264, 9)), ((0x03, 1), (1024, 256, 8)),
   ((0x04, 0), (2048, 264, 9)), ((0x04, 1), (2048, 256, 8)),
   ((0x05, 0), (4096, 264, 9)), ((0x05, 1), (4096, 256, 8)),
   ((0x06, 0), (4096, 528, 10)), ((0x06, 1), (4096, 512, 9)),
   ((0x07, 0), (8192, 528, 10)), ((0x07, 1), (8192, 512, 9)),
   ((0x08, 0), (8192, 1056, 11)), ((0x08, 1), (8192, 1024, 10))]

/-- Row of `documentedTable` for capacity code `c` and extended-data bit `e`. -/
def documentedGeometry (c e : Nat) : Option (Nat × Nat × Nat) :=
  documentedTable.lookup (c, e)

/-- Bus log of the identification transaction of `AT45_Init` when the chip
answers `r0` to the opcode and then `mnf`, `prd`, `b3`, `b4`, `edi`. -/
def idTransaction (r0 mnf prd b3 b4 edi : Nat) : List BusEvent :=
  [BusEvent.cs true, BusEvent.cs false, BusEvent.spi AT45DB_RDDEVID r0, BusEvent.spi 0 mnf,
   BusEvent.spi 0 prd, BusEvent.spi 0 b3, BusEvent.spi 0 b4, BusEvent.spi 0 edi,
   BusEvent.cs true]

/-- Bus log of one status read (`AT45_ReadStatus`) when the chip answers `r0` to
the opcode and then the status bytes `s1`, `s2`. -/
def statusTransaction (r0 s1 s2 : Nat) : List BusEvent :=
  [BusEvent.cs false, BusEvent.spi AT45DB_RDSR r0, BusEvent.spi 0 s1, BusEvent.spi 0 s2,
   BusEvent.cs true]

/-- Linear address `(page << Shift) + offset` in 32-bit arithmetic. -/
def linearAddress (g : AT45_t) (page offset : Nat) : Nat :=
  (page * 2 ^ g.Shift + offset) % 2 ^ 32

/-- Bits 23..16, 15..8 and 7..0 of an address, in that order. -/
def addressBytes (a : Nat) : List Nat :=
  [a / 2 ^ 16 % 2 ^ 8, a / 2 ^ 8 % 2 ^ 8, a % 2 ^ 8]

/-- Bytes the driver put on the wire, in order. -/
def sentBytes : List BusEvent → List Nat
  | [] => []
  | BusEvent.spi tx _ :: es => tx :: sentBytes es
  | _ :: es => sentBytes es

/-- Bytes clocked in by `HAL_SPI_Receive`, in order. -/
def receivedBytes : List BusEvent → List Nat
  | [] => []
  | BusEvent.recv rx :: es => rx :: receivedBytes es
  | _ :: es => receivedBytes es

/-- Bus log of a run of status reads, one entry `(r0, s1, s2)` per read. -/
def statusPolls : List (Nat × Nat × Nat) → List BusEvent
  | [] => []
  | p :: ps => statusTransaction p.1 p.2.1 p.2.2 ++ statusPolls ps

/-- The `n` bytes `buf[i], buf[i+1], ...` as `HAL_SPI_Transmit` puts them on the
wire. -/
def bufferBytes (buf : List Nat) : Nat → Nat → List Nat
  | _, 0 => []
  | i, n + 1 => (buf.getD i 0 % 256) :: bufferBytes buf (i + 1) n

/-- Bus log of one chip-select bracket: select, the bytes `tx` sent through
`AT45_Spi` (answered by `rx`), a data phase, release. -/
def commandTransaction (tx rx : List Nat) (data : List BusEvent) : List BusEvent :=
  BusEvent.cs false :: (List.zipWith BusEvent.spi tx rx ++ data ++ [BusEvent.cs true])

/-- A world with a given descriptor in front of a scripted chip. -/
def worldWith (g : AT45_t) (script : List Nat) : World (List Nat) :=
  { chip := script, AT45 := g, trace := [], tick := 20 }

/-! ### Reference chip

A chip model that stores bytes by linear address and executes the command
sequences it receives: 0x81 page erase, 0x82 program through buffer, 0x0B array
read, 0xD7 status read.  After an erase or a program it answers "busy" to the
next `latency` status reads, and while busy it accepts no command other than the
status read. -/

/-- Where the reference chip stands inside a chip-select bracket. -/
inductive Phase where
  | idle
  | opcode
  | address (op : Nat) (got : List Nat)
  | dummy (addr : Nat)
  | reading (addr : Nat)
  | programming (addr : Nat)
  | erasing (addr : Nat)
  | status (sent : Nat)
  | other
deriving DecidableEq, Repr

/-- State of the reference chip: the stored bytes by linear address, the phase
of the current bracket and the number of status reads still answered "busy". -/
structure RefChip where
  mem : Nat → Nat
  phase : Phase
  busy : Nat

/-- The reference chip for a given address shift and busy latency.  Releasing
chip-select after a page-erase command sets every byte of the addressed page to
0xFF; each data byte of a program command is stored at the next linear address
and no other byte changes; each byte clocked out of an array read comes from the
next linear address. -/
def refChip (shift latency : Nat) : Device RefChip where
  cs s high :=
    if high then
      match s.phase with
      | Phase.erasing a =>
        { mem := fun x => if x / 2 ^ shift = a / 2 ^ shift then 0xFF else s.mem x,
          phase := Phase.idle, busy := latency }
      | Phase.programming _ => { mem := s.mem, phase := Phase.idle, busy := latency }
      | _ => { mem := s.mem, phase := Phase.idle, busy := s.busy }
    else { mem := s.mem, phase := Phase.opcode, busy := s.busy }
  exchange s tx :=
    match s.phase with
    | Phase.opcode =>
      if tx = AT45DB_RDSR then ({ mem := s.mem, phase := Phase.status 0, busy := s.busy }, 0)
      else if s.busy ≠ 0 then ({ mem := s.mem, phase := Phase.other, busy := s.busy }, 0)
      else if tx = AT45DB_PGERASE ∨ tx = AT45DB_MNTHRUBF1 ∨ tx = AT45DB_RDARRAYHF then
        ({ mem := s.mem, phase := Phase.address tx [], busy := s.busy }, 0)
      else ({ mem := s.mem, phase := Phase.other, busy := s.busy }, 0)
    | Phase.address op [a2, a1] =>
      let a := a2 * 65536 + a1 * 256 + tx
      ({ mem := s.mem,
         phase := if op = AT45DB_MNTHRUBF1 then Phase.programming a
                  else if op = AT45DB_PGERASE then Phase.erasing a
                  else Phase.dummy a,
         busy := s.busy }, 0)
    | Phase.address op got =>
      ({ mem := s.mem, phase := Phase.address op (got ++ [tx]), busy := s.busy }, 0)
    | Phase.dummy a => ({ mem := s.mem, phase := Phase.reading a, busy := s.busy }, 0)
    | Phase.reading a =>
      ({ mem := s.mem, phase := Phase.reading (a + 1), busy := s.busy }, s.mem a)
    | Phase.programming a =>
      ({ mem := fun x => if x = a then tx else s.mem x, phase := Phase.programming (a + 1),
         busy := s.busy }, 0)
    | Phase.status 0 =>
      if s.busy = 0 then ({ mem := s.mem, phase := Phase.status 1, busy := 0 }, 0x80)
      else ({ mem := s.mem, phase := Phase.status 1, busy := s.busy - 1 }, 0x00)
    | Phase.status (n + 1) =>
      ({ mem := s.mem, phase := Phase.status (n + 2), busy := s.busy }, 0)
    | _ => (s, 0)
  clockIn s :=
    match s.phase with
    | Phase.reading a =>
      ({ mem := s.mem, phase := Phase.reading (a + 1), busy := s.busy }, s.mem a)
    | _ => (s, 0)

/-- A world with a given descriptor in front of a reference chip that is idle,
ready and holds `mem`. -/
def refWorld (g : AT45_t) (mem : Nat → Nat) : World RefChip :=
  { chip := { mem := mem, phase := Phase.idle, busy := 0 }, AT45 := g, trace := [],
    tick := 20 }

/-- Memory after storing `bytes` at `a`, `a + 1`, ... -/
def storeBytes (mem : Nat → Nat) : Nat → List Nat → Nat → Nat
  | _, [] => mem
  | a, b :: bs => storeBytes (fun x => if x = a then b else mem x) (a + 1) bs

/-- The `n` bytes an array read clocks out from address `a` on. -/
def readBytes (mem : Nat → Nat) : Nat → Nat → List Nat
  | _, 0 => []
  | a, n + 1 => (mem a % 256) :: readBytes mem (a + 1) n

/-! ## Identification (`AT45_Init`) -/

theorem settleLoop_fields (n : Nat) (w : World σ) :
    (settleLoop n w).chip = w.chip ∧ (settleLoop n w).AT45 = w.AT45 ∧
      (settleLoop n w).trace = w.trace := by
  induction n generalizing w with
  | zero => simp [settleLoop]
  | succ n ih =>
    unfold settleLoop
    split
    · simpa [osDelay] using ih (osDelay w 10)
    · simp

/-- Two passes of the settle loop always reach the 20 ms mark. -/
theorem settleLoop_two (w : World σ) : 20 ≤ (settleLoop 2 w).tick := by
  simp only [settleLoop, HAL_GetTick, osDelay]
  split_ifs <;> first | omega | (dsimp only; omega)

/-- What `AT45_Init` returns and stores, read off the bytes the chip answered. -/
theorem AT45_Init_of_trace (d : Device σ) (w : World σ) (r0 mnf prd b3 b4 edi : Nat)
    (h : (AT45_Init d w).2.trace = w.trace ++ idTransaction r0 mnf prd b3 b4 edi) :
    (AT45_Init d w).1 = decide (mnf = AT45DB_MANUFACTURER) ∧
    (AT45_Init d w).2.AT45 =
      if mnf = AT45DB_MANUFACTURER ∧ prd &&& AT45DB_DEVID1_FAMMSK = AT45DB_DEVID1_DFLASH
      then AT45_Init_switch w.AT45 prd edi else w.AT45 := by
  have hs := fun v : World σ => settleLoop_fields 2 v
  simp only [AT45_Init, AT45_Spi, HAL_GPIO_WritePin, idTransaction, (hs _).1, (hs _).2.1,
    (hs _).2.2] at h ⊢
  split_ifs at h ⊢ with h1 h2 h3 h4 <;>
    simp only [List.append_assoc, List.append_cancel_left_eq, List.cons_append, List.nil_append,
      List.cons.injEq, BusEvent.spi.injEq, and_true, true_and] at h <;>
    obtain ⟨-, rfl, rfl, -, -, rfl⟩ := h <;> simp_all

/-- Every run of `AT45_Init` logs exactly one identification transaction. -/
theorem AT45_Init_trace (d : Device σ) (w : World σ) :
    ∃ r0 mnf prd b3 b4 edi,
      (AT45_Init d w).2.trace = w.trace ++ idTransaction r0 mnf prd b3 b4 edi := by
  have hs := fun v : World σ => settleLoop_fields 2 v
  refine ⟨?r0, ?mnf, ?prd, ?b3, ?b4, ?edi, ?h⟩
  case h =>
    simp only [AT45_Init, AT45_Spi, HAL_GPIO_WritePin, idTransaction, (hs _).1, (hs _).2.1,
      (hs _).2.2]
    split_ifs <;>
      simp only [List.append_assoc, List.cons_append, List.nil_append, Nat.reduceMod] <;>
      exact rfl

theorem AT45_Init_switch_table (g : AT45_t) (prd edi : Nat)
    (hc : 2 ≤ prd &&& 0x1F ∧ prd &&& 0x1F ≤ 8) :
    some ((AT45_Init_switch g prd edi).Pages, (AT45_Init_switch g prd edi).PageSize,
      (AT45_Init_switch g prd edi).Shift) = documentedGeometry (prd &&& 0x1F) (edi &&& 1) := by
  have he : edi &&& 1 = 0 ∨ edi &&& 1 = 1 := by
    have := Nat.and_le_right (n := edi) (m := 1); omega
  unfold AT45_Init_switch
  simp only [AT45DB_DEVID1_CAPMSK]
  generalize prd &&& 0x1F = c at *
  obtain ⟨h1, h2⟩ := hc
  interval_cases c <;> rcases he with he | he <;> simp [he] <;> rfl

theorem AT45_Init_switch_other (g : AT45_t) (prd edi : Nat)
    (hc : ¬ (2 ≤ prd &&& 0x1F ∧ prd &&& 0x1F ≤ 8)) : AT45_Init_switch g prd edi = g := by
  unfold AT45_Init_switch
  simp only [AT45DB_DEVID1_CAPMSK]
  generalize prd &&& 0x1F = c at *
  have : c ≠ 2 ∧ c ≠ 3 ∧ c ≠ 4 ∧ c ≠ 5 ∧ c ≠ 6 ∧ c ≠ 7 ∧ c ≠ 8 := by omega
  simp [this]

theorem AT45_Init_switch_page_le (g : AT45_t) (prd edi : Nat)
    (hg : g.PageSize ≤ 2 ^ g.Shift) :
    (AT45_Init_switch g prd edi).PageSize ≤ 2 ^ (AT45_Init_switch g prd edi).Shift := by
  by_cases hc : 2 ≤ prd &&& 0x1F ∧ prd &&& 0x1F ≤ 8
  · have he : edi &&& 1 = 0 ∨ edi &&& 1 = 1 := by
      have := Nat.and_le_right (n := edi) (m := 1); omega
    unfold AT45_Init_switch
    simp only [AT45DB_DEVID1_CAPMSK]
    generalize prd &&& 0x1F = c at *
    obtain ⟨h1, h2⟩ := hc
    interval_cases c <;> rcases he with he | he <;> simp [he]
  · rw [AT45_Init_switch_other g prd edi hc]
    exact hg

/-- C1: for every identification response with manufacturer byte 0x1F, family
bits 0x20 and capacity code `c` in 0x02..0x08, `AT45_Init` stores the row
(Pages, PageSize, Shift) of the documented table for `c` and the low bit of the
extended-data byte; in particular `c = 0x06` gives page size 528, shift 10 and
4096 pages with the bit clear, and page size 512, shift 9 with the bit set. -/
theorem AT45_Init_documented_geometry (d : Device σ) (w : World σ)
    (r0 mnf prd b3 b4 edi : Nat)
    (hresp : (AT45_Init d w).2.trace = w.trace ++ idTransaction r0 mnf prd b3 b4 edi)
    (hmnf : mnf = 0x1F) (hfam : prd &&& 0xE0 = 0x20)
    (hcap : 0x02 ≤ prd &&& 0x1F ∧ prd &&& 0x1F ≤ 0x08) :
    some ((AT45_Init d w).2.AT45.Pages, (AT45_Init d w).2.AT45.PageSize,
        (AT45_Init d w).2.AT45.Shift) = documentedGeometry (prd &&& 0x1F) (edi &&& 1) ∧
    (prd &&& 0x1F = 0x06 → edi &&& 1 = 0 →
      (AT45_Init d w).2.AT45.PageSize = 528 ∧ (AT45_Init d w).2.AT45.Shift = 10 ∧
        (AT45_Init d w).2.AT45.Pages = 4096) ∧
    (prd &&& 0x1F = 0x06 → edi &&& 1 = 1 →
      (AT45_Init d w).2.AT45.PageSize = 512 ∧ (AT45_Init d w).2.AT45.Shift = 9) := by
  have hrun := (AT45_Init_of_trace d w r0 mnf prd b3 b4 edi hresp).2
  have hcond : mnf = AT45DB_MANUFACTURER ∧
      prd &&& AT45DB_DEVID1_FAMMSK = AT45DB_DEVID1_DFLASH := ⟨hmnf, hfam⟩
  rw [if_pos hcond] at hrun
  have htab := AT45_Init_switch_table w.AT45 prd edi hcap
  rw [← hrun] at htab
  refine ⟨htab, ?_, ?_⟩
  · intro h6 h0
    rw [h6, h0] at htab
    have h := Option.some.inj htab
    simp only [Prod.mk.injEq] at h
    exact ⟨h.2.1, h.2.2, h.1⟩
  · intro h6 h1
    rw [h6, h1] at htab
    have h := Option.some.inj htab
    simp only [Prod.mk.injEq] at h
    exact ⟨h.2.1, h.2.2⟩

/-- Witness for C1: a 16 Mbit chip (ID bytes 1F 26 00 01 00) in native page mode. -/
theorem AT45_Init_documented_geometry_witness :
    (AT45_Init scripted (startWorld [0xFF, 0x1F, 0x26, 0x00, 0x01, 0x00])).2.AT45.PageSize = 528 ∧
    (AT45_Init scripted (startWorld [0xFF, 0x1F, 0x26, 0x00, 0x01, 0x00])).2.AT45.Shift = 10 ∧
    (AT45_Init scripted (startWorld [0xFF, 0x1F, 0x26, 0x00, 0x01, 0x00])).2.AT45.Pages = 4096 :=
  (AT45_Init_documented_geometry scripted (startWorld [0xFF, 0x1F, 0x26, 0x00, 0x01, 0x00])
    0xFF 0x1F 0x26 0x00 0x01 0x00 (by decide) (by decide) (by decide) (by decide)).2.1
    (by decide) (by decide)

/-- C2: starting from the zero-initialised descriptor, every run of `AT45_Init`
that reports success leaves a descriptor with `PageSize ≤ 2 ^ Shift`. -/
theorem AT45_Init_page_fits_shift (d : Device σ) (w : World σ)
    (hzero : w.AT45 = AT45_zero) (_hok : (AT45_Init d w).1 = true) :
    (AT45_Init d w).2.AT45.PageSize ≤ 2 ^ (AT45_Init d w).2.AT45.Shift := by
  obtain ⟨r0, mnf, prd, b3, b4, edi, htr⟩ := AT45_Init_trace d w
  have hrun := (AT45_Init_of_trace d w r0 mnf prd b3 b4 edi htr).2
  have hz : w.AT45.PageSize ≤ 2 ^ w.AT45.Shift := by rw [hzero]; decide
  rw [hrun]
  split_ifs
  · exact AT45_Init_switch_page_le w.AT45 prd edi hz
  · exact hz

/-- Witness for C2: the 64 Mbit row, native pages (1056 ≤ 2 ^ 11). -/
theorem AT45_Init_page_fits_shift_witness :
    (AT45_Init scripted (startWorld [0xFF, 0x1F, 0x28, 0x00, 0x01, 0x00])).2.AT45.PageSize ≤
      2 ^ (AT45_Init scripted (startWorld [0xFF, 0x1F, 0x28, 0x00, 0x01, 0x00])).2.AT45.Shift :=
  AT45_Init_page_fits_shift scripted (startWorld [0xFF, 0x1F, 0x28, 0x00, 0x01, 0x00])
    (by decide) (by decide)

/-- C3: when the manufacturer byte of the identification response is not 0x1F,
`AT45_Init` returns false, whatever the other response bytes are. -/
theorem AT45_Init_unknown_manufacturer (d : Device σ) (w : World σ)
    (r0 mnf prd b3 b4 edi : Nat)
    (hresp : (AT45_Init d w).2.trace = w.trace ++ idTransaction r0 mnf prd b3 b4 edi)
    (hmnf : mnf ≠ 0x1F) :
    (AT45_Init d w).1 = false := by
  rw [(AT45_Init_of_trace d w r0 mnf prd b3 b4 edi hresp).1]
  simpa using hmnf

/-- Witness for C3: a Winbond manufacturer byte (0xEF) in front of an otherwise
valid AT45DB161 response. -/
theorem AT45_Init_unknown_manufacturer_witness :
    (AT45_Init scripted (startWorld [0xFF, 0xEF, 0x26, 0x00, 0x01, 0x00])).1 = false :=
  AT45_Init_unknown_manufacturer scripted (startWorld [0xFF, 0xEF, 0x26, 0x00, 0x01, 0x00])
    0xFF 0xEF 0x26 0x00 0x01 0x00 (by decide) (by decide)

/-- C4: on the response 1F 46 00 01 00 (manufacturer 0x1F, family bits 0x40, the
AT26DF family) `AT45_Init` returns true and leaves the zero descriptor in place:
the `return true` sits after the family test, not inside it. -/
theorem AT45_Init_unsupported_family_returns_true :
    (AT45_Init scripted (startWorld [0xFF, 0x1F, 0x46, 0x00, 0x01, 0x00])).1 = true ∧
    (AT45_Init scripted (startWorld [0xFF, 0x1F, 0x46, 0x00, 0x01, 0x00])).2.AT45 = AT45_zero := by
  decide

/-- C5: on the response 1F 29 00 01 00 (manufacturer 0x1F, family bits 0x20,
capacity code 0x09, which the switch does not list) `AT45_Init` returns true; on
a fresh descriptor it leaves the zero geometry, and when it runs after an
earlier identification of a 16 Mbit chip it leaves that earlier geometry in
place. -/
theorem AT45_Init_unlisted_capacity_returns_true :
    (AT45_Init scripted (startWorld [0xFF, 0x1F, 0x29, 0x00, 0x01, 0x00])).1 = true ∧
    (AT45_Init scripted (startWorld [0xFF, 0x1F, 0x29, 0x00, 0x01, 0x00])).2.AT45 = AT45_zero ∧
    (AT45_Init scripted (AT45_Init scripted (startWorld
        [0xFF, 0x1F, 0x26, 0x00, 0x01, 0x00, 0xFF, 0x1F, 0x29, 0x00, 0x01, 0x00])).2).1 = true ∧
    (AT45_Init scripted (AT45_Init scripted (startWorld
        [0xFF, 0x1F, 0x26, 0x00, 0x01, 0x00, 0xFF, 0x1F, 0x29, 0x00, 0x01, 0x00])).2).2.AT45 =
      { FlashSize_MBit := 16, PageSize := 528, Pages := 4096, Shift := 10 } := by
  decide

/-! ## Busy / ready protocol (`AT45_ReadStatus`, `AT45_IsBusy`) -/

/-- Masking the 16-bit status word with `AT45DB_SR_RDY` only looks at the first
status byte. -/
theorem status_word_rdy (a b : Nat) :
    ((((b &&& 0xFF) <<< 8) ||| (a &&& 0xFF)) % 65536) &&& AT45DB_SR_RDY = a &&& 0x80 := by
  apply Nat.eq_of_testBit_eq
  intro i
  have h65 : (65536 : Nat) = 2 ^ 16 := rfl
  have h80 : (0x80 : Nat) = 2 ^ 7 := rfl
  have h17 : AT45DB_SR_RDY = 2 ^ 7 := rfl
  have hff : (0xFF : Nat) = 2 ^ 8 - 1 := rfl
  rw [h65, h80, h17, hff]
  simp only [Nat.testBit_and, Nat.testBit_mod_two_pow, Nat.testBit_or, Nat.testBit_shiftLeft,
    Nat.testBit_two_pow, Nat.testBit_two_pow_sub_one]
  by_cases hi : i = 7
  · subst hi; simp
  · have : (7 = i) = False := by simp; omega
    simp [this]

theorem and_0x80_eq_zero (a : Nat) : a &&& 0x80 = 0 ↔ a.testBit 7 = false := by
  have h80 : (0x80 : Nat) = 2 ^ 7 := rfl
  rw [h80]
  constructor
  · intro h
    have := congrArg (fun x => Nat.testBit x 7) h
    simp only [Nat.testBit_and, Nat.testBit_two_pow, Nat.zero_testBit] at this
    simpa using this
  · intro h
    apply Nat.eq_of_testBit_eq
    intro i
    simp only [Nat.testBit_and, Nat.testBit_two_pow, Nat.zero_testBit]
    by_cases hi : 7 = i
    · subst hi; simp [h]
    · simp [hi]

/-- Every call of `AT45_IsBusy` logs exactly one status read and leaves the
descriptor alone. -/
theorem AT45_IsBusy_trace (d : Device σ) (w : World σ) :
    ∃ r0 s1 s2, (AT45_IsBusy d w).2.trace = w.trace ++ statusTransaction r0 s1 s2 := by
  refine ⟨?r0, ?s1, ?s2, ?h⟩
  case h =>
    simp only [AT45_IsBusy, AT45_ReadStatus, AT45_Spi, HAL_GPIO_WritePin, statusTransaction,
      List.append_assoc, List.cons_append, List.nil_append, Nat.reduceMod]
    exact rfl

theorem AT45_IsBusy_AT45 (d : Device σ) (w : World σ) :
    (AT45_IsBusy d w).2.AT45 = w.AT45 := by
  simp only [AT45_IsBusy, AT45_ReadStatus, AT45_Spi, HAL_GPIO_WritePin]

/-- The result of `AT45_IsBusy`, read off the status bytes the chip answered. -/
theorem AT45_IsBusy_of_trace (d : Device σ) (w : World σ) (r0 s1 s2 : Nat)
    (h : (AT45_IsBusy d w).2.trace = w.trace ++ statusTransaction r0 s1 s2) :
    (AT45_IsBusy d w).1 = decide (s1.testBit 7 = false) := by
  simp only [AT45_IsBusy, AT45_ReadStatus, AT45_Spi, HAL_GPIO_WritePin, statusTransaction,
    List.append_assoc, List.append_cancel_left_eq, List.cons_append, List.nil_append,
    List.cons.injEq, BusEvent.spi.injEq, and_true, true_and] at h ⊢
  obtain ⟨-, ⟨-, rfl⟩, -, -⟩ := h
  rw [status_word_rdy]
  simp only [and_0x80_eq_zero]

/-- C6: for every pair of status bytes `s1`, `s2` the chip answers to the
read-status command, `AT45_IsBusy` returns true exactly when bit 7 (RDY) of `s1`
is clear; any other run whose first status byte is the same `s1` returns the
same result, whatever its second byte. -/
theorem AT45_IsBusy_iff_rdy_clear (d : Device σ) (w : World σ) (r0 s1 s2 : Nat)
    (hresp : (AT45_IsBusy d w).2.trace = w.trace ++ statusTransaction r0 s1 s2) :
    ((AT45_IsBusy d w).1 = true ↔ s1.testBit 7 = false) ∧
    ∀ (w2 : World σ) (q0 t2 : Nat),
      (AT45_IsBusy d w2).2.trace = w2.trace ++ statusTransaction q0 s1 t2 →
      (AT45_IsBusy d w2).1 = (AT45_IsBusy d w).1 := by
  constructor
  · rw [AT45_IsBusy_of_trace d w r0 s1 s2 hresp]
    simp
  · intro w2 q0 t2 h2
    rw [AT45_IsBusy_of_trace d w r0 s1 s2 hresp, AT45_IsBusy_of_trace d w2 q0 s1 t2 h2]

/-- Witness for C6: status bytes 0x3C (RDY clear), 0xFF: busy. -/
theorem AT45_IsBusy_iff_rdy_clear_witness :
    (AT45_IsBusy scripted (startWorld [0x00, 0x3C, 0xFF])).1 = true :=
  (AT45_IsBusy_iff_rdy_clear scripted (startWorld [0x00, 0x3C, 0xFF]) 0x00 0x3C 0xFF
    (by decide)).1.2 (by decide)

/-! ## Bus logs of the page operations -/

theorem bufferBytes_length (buf : List Nat) (i n : Nat) : (bufferBytes buf i n).length = n := by
  induction n generalizing i with
  | zero => rfl
  | succ n ih => simp [bufferBytes, ih]

theorem sentBytes_append (xs ys : List BusEvent) :
    sentBytes (xs ++ ys) = sentBytes xs ++ sentBytes ys := by
  induction xs with
  | nil => rfl
  | cons e es ih => cases e <;> simp [sentBytes, ih]

theorem receivedBytes_append (xs ys : List BusEvent) :
    receivedBytes (xs ++ ys) = receivedBytes xs ++ receivedBytes ys := by
  induction xs with
  | nil => rfl
  | cons e es ih => cases e <;> simp [receivedBytes, ih]

theorem sentBytes_zipWith (tx rx : List Nat) (h : tx.length = rx.length) :
    sentBytes (List.zipWith BusEvent.spi tx rx) = tx := by
  induction tx generalizing rx with
  | nil => rfl
  | cons t ts ih =>
    cases rx with
    | nil => simp at h
    | cons r rs => simp [sentBytes, ih rs (by simpa using h)]

theorem receivedBytes_zipWith (tx rx : List Nat) :
    receivedBytes (List.zipWith BusEvent.spi tx rx) = [] := by
  induction tx generalizing rx with
  | nil => rfl
  | cons t ts ih =>
    cases rx with
    | nil => rfl
    | cons r rs => simp [receivedBytes, ih rs]

theorem sentBytes_map_recv (rs : List Nat) : sentBytes (rs.map BusEvent.recv) = [] := by
  induction rs with
  | nil => rfl
  | cons r rs ih => simp [sentBytes, ih]

theorem receivedBytes_map_recv (rs : List Nat) : receivedBytes (rs.map BusEvent.recv) = rs := by
  induction rs with
  | nil => rfl
  | cons r rs ih => simp [receivedBytes, ih]

theorem HAL_SPI_Transmit_from_spec (d : Device σ) (buf : List Nat) (n i : Nat) (w : World σ) :
    (HAL_SPI_Transmit_from d buf i n w).AT45 = w.AT45 ∧
    ∃ rs : List Nat, rs.length = n ∧
      (HAL_SPI_Transmit_from d buf i n w).trace =
        w.trace ++ List.zipWith BusEvent.spi (bufferBytes buf i n) rs := by
  induction n generalizing i w with
  | zero => exact ⟨rfl, [], rfl, by simp [HAL_SPI_Transmit_from, bufferBytes]⟩
  | succ n ih =>
    unfold HAL_SPI_Transmit_from
    obtain ⟨hA, rs, hlen, htr⟩ := ih (i + 1)
      { w with chip := (d.exchange w.chip (buf.getD i 0 % 256)).1,
               trace := w.trace ++ [BusEvent.spi (buf.getD i 0 % 256)
                 ((d.exchange w.chip (buf.getD i 0 % 256)).2 % 256)] }
    refine ⟨hA, ((d.exchange w.chip (buf.getD i 0 % 256)).2 % 256) :: rs, by simp [hlen], ?_⟩
    simp only [htr, bufferBytes, List.zipWith_cons_cons, List.append_assoc, List.cons_append,
      List.nil_append]

theorem HAL_SPI_Receive_spec (d : Device σ) (n : Nat) (w : World σ) :
    (HAL_SPI_Receive d n w).2.AT45 = w.AT45 ∧ (HAL_SPI_Receive d n w).1.length = n ∧
      (HAL_SPI_Receive d n w).2.trace =
        w.trace ++ (HAL_SPI_Receive d n w).1.map BusEvent.recv := by
  induction n generalizing w with
  | zero => simp [HAL_SPI_Receive]
  | succ n ih =>
    unfold HAL_SPI_Receive
    obtain ⟨hA, hlen, htr⟩ := ih
      { w with chip := (d.clockIn w.chip).1,
               trace := w.trace ++ [BusEvent.recv ((d.clockIn w.chip).2 % 256)] }
    refine ⟨hA, by simp [hlen], ?_⟩
    simp only [htr, List.map_cons, List.append_assoc, List.cons_append, List.nil_append]

theorem waitWhileBusy_spec (d : Device σ) (fuel : Nat) (w w2 : World σ)
    (h : waitWhileBusy d fuel w = some w2) :
    w2.AT45 = w.AT45 ∧
    ∃ (polls : List (Nat × Nat × Nat)) (r0 s1 s2 : Nat),
      w2.trace = w.trace ++ (statusPolls polls ++ statusTransaction r0 s1 s2) ∧
      s1.testBit 7 = true ∧ ∀ p ∈ polls, p.2.1.testBit 7 = false := by
  induction fuel generalizing w with
  | zero => simp [waitWhileBusy] at h
  | succ fuel ih =>
    unfold waitWhileBusy at h
    obtain ⟨r0, s1, s2, htr⟩ := AT45_IsBusy_trace d w
    have hb := AT45_IsBusy_of_trace d w r0 s1 s2 htr
    have hA := AT45_IsBusy_AT45 d w
    simp only at h
    split_ifs at h with hbusy
    · obtain ⟨hA2, polls, q0, t1, t2, htr2, hrdy, hall⟩ := ih _ h
      refine ⟨hA2.trans hA, (r0, s1, s2) :: polls, q0, t1, t2, ?_, hrdy, ?_⟩
      · rw [htr2, htr]; simp [statusPolls]
      · intro p hp
        rcases List.mem_cons.mp hp with rfl | hp
        · rw [hb] at hbusy; simpa using hbusy
        · exact hall p hp
    · cases h
      refine ⟨hA, [], r0, s1, s2, ?_, ?_, ?_⟩
      · rw [htr]; simp [statusPolls]
      · rw [hb] at hbusy; simpa using hbusy
      · intro p hp; simp at hp


theorem HAL_GPIO_WritePin_AT45 (d : Device σ) (w : World σ) (b : Bool) :
    (HAL_GPIO_WritePin d w b).AT45 = w.AT45 := rfl

theorem HAL_GPIO_WritePin_trace (d : Device σ) (w : World σ) (b : Bool) :
    (HAL_GPIO_WritePin d w b).trace = w.trace ++ [BusEvent.cs b] := rfl

theorem AT45_Spi_AT45 (d : Device σ) (w : World σ) (x : Nat) :
    (AT45_Spi d w x).2.AT45 = w.AT45 := rfl

theorem AT45_Spi_trace (d : Device σ) (w : World σ) (x : Nat) :
    (AT45_Spi d w x).2.trace = w.trace ++ [BusEvent.spi (x % 256) (AT45_Spi d w x).1] := rfl

theorem AT45_Resume_spec (d : Device σ) (fuel : Nat) (w w1 : World σ)
    (h : AT45_Resume d fuel w = some w1) :
    w1.AT45 = w.AT45 ∧
    ∃ (q : Nat) (polls : List (Nat × Nat × Nat)) (r0 s1 s2 : Nat),
      w1.trace = w.trace ++ (commandTransaction [AT45DB_RESUME] [q] [] ++
        (statusPolls polls ++ statusTransaction r0 s1 s2)) ∧
      s1.testBit 7 = true ∧ ∀ p ∈ polls, p.2.1.testBit 7 = false := by
  unfold AT45_Resume at h
  obtain ⟨hA, polls, r0, s1, s2, htr, hrdy, hall⟩ := waitWhileBusy_spec d fuel _ w1 h
  refine ⟨?_, (AT45_Spi d (HAL_GPIO_WritePin d w false) AT45DB_RESUME).1, polls, r0, s1, s2,
    ?_, hrdy, hall⟩
  · rw [hA]; simp only [AT45_Spi, HAL_GPIO_WritePin]
  · rw [htr]
    simp only [AT45_Spi, HAL_GPIO_WritePin, commandTransaction, List.append_assoc,
      List.cons_append, List.nil_append, Nat.reduceMod, List.zipWith_cons_cons,
      List.zipWith_nil_right]
    rfl

theorem linearAddress_eq (g : AT45_t) (page offset : Nat) :
    ((page <<< g.Shift) % 2 ^ 32 + offset) % 2 ^ 32 = linearAddress g page offset := by
  simp only [linearAddress, Nat.shiftLeft_eq, Nat.mod_add_mod]

theorem clamp_eq_min (size pageSize : Nat) :
    (if size > pageSize then pageSize else size) = min size pageSize := by
  split_ifs with h
  · exact (Nat.min_eq_right (Nat.le_of_lt h)).symm
  · exact (Nat.min_eq_left (Nat.le_of_not_gt h)).symm

/-- Chip-select low followed by an opcode and the three address bytes of `a`. -/
theorem command_header (d : Device σ) (w : World σ) (op a : Nat) (hop : op < 256) :
    (AT45_Spi d (AT45_Spi d (AT45_Spi d (AT45_Spi d (HAL_GPIO_WritePin d w false) op).2
        ((a >>> 16) % 256)).2 ((a >>> 8) % 256)).2 (a % 256)).2.AT45 = w.AT45 ∧
    ∃ q : List Nat, q.length = 4 ∧
      (AT45_Spi d (AT45_Spi d (AT45_Spi d (AT45_Spi d (HAL_GPIO_WritePin d w false) op).2
        ((a >>> 16) % 256)).2 ((a >>> 8) % 256)).2 (a % 256)).2.trace =
      w.trace ++ BusEvent.cs false :: List.zipWith BusEvent.spi (op :: addressBytes a) q := by
  refine ⟨by simp only [AT45_Spi, HAL_GPIO_WritePin], [?q0, ?q1, ?q2, ?q3], rfl, ?h⟩
  case h =>
    simp only [AT45_Spi, HAL_GPIO_WritePin, addressBytes, List.append_assoc, List.cons_append,
      List.nil_append, List.zipWith_cons_cons, List.zipWith_nil_right, Nat.mod_mod,
      Nat.shiftRight_eq_div_pow, Nat.mod_eq_of_lt hop]
    exact rfl


theorem AT45_WritePage_run (d : Device σ) (fuel : Nat) (w w1 : World σ)
    (page offset size : Nat) (buf : List Nat) (hres : AT45_Resume d fuel w = some w1) :
    ∃ (w2 : World σ) (q rs : List Nat),
      AT45_WritePage d fuel w page offset size buf = some w2 ∧ w2.AT45 = w1.AT45 ∧
      q.length = 4 ∧ rs.length = min (size % 65536) w.AT45.PageSize ∧
      w2.trace = w1.trace ++ commandTransaction
        (AT45DB_MNTHRUBF1 :: addressBytes (linearAddress w.AT45 (page % 65536) (offset % 65536))) q
        (List.zipWith BusEvent.spi
          (bufferBytes buf 0 (min (size % 65536) w.AT45.PageSize)) rs) := by
  unfold AT45_WritePage
  simp only [hres, Option.map_some', linearAddress_eq, clamp_eq_min]
  generalize linearAddress w.AT45 (page % 65536) (offset % 65536) = a
  generalize min (size % 65536) w.AT45.PageSize = n
  obtain ⟨hA6, q, hq, htr6⟩ := command_header d w1 AT45DB_MNTHRUBF1 a (by decide)
  revert hA6 htr6
  generalize (AT45_Spi d (AT45_Spi d (AT45_Spi d (AT45_Spi d (HAL_GPIO_WritePin d w1 false)
    AT45DB_MNTHRUBF1).2 ((a >>> 16) % 256)).2 ((a >>> 8) % 256)).2 (a % 256)).2 = w6
  intro hA6 htr6
  obtain ⟨hA7, rs, hrs, htr7⟩ := HAL_SPI_Transmit_from_spec d buf n 0 w6
  refine ⟨_, q, rs, rfl, ?_, hq, hrs, ?_⟩
  · simp only [HAL_GPIO_WritePin_AT45, HAL_SPI_Transmit, hA7, hA6]
  · simp only [HAL_GPIO_WritePin_trace, HAL_SPI_Transmit, htr7, htr6, commandTransaction,
      List.append_assoc, List.cons_append, List.nil_append]

theorem AT45_ReadPage_run (d : Device σ) (fuel : Nat) (w w1 : World σ)
    (page offset size : Nat) (buf : List Nat) (hres : AT45_Resume d fuel w = some w1) :
    ∃ (r : List Nat × World σ) (q data : List Nat),
      AT45_ReadPage d fuel w page offset size buf = some r ∧ r.2.AT45 = w1.AT45 ∧
      q.length = 5 ∧ data.length = min (size % 65536) w.AT45.PageSize ∧
      r.1 = data ++ buf.drop (min (size % 65536) w.AT45.PageSize) ∧
      r.2.trace = w1.trace ++ commandTransaction
        (AT45DB_RDARRAYHF ::
          (addressBytes (linearAddress w.AT45 (page % 65536) (offset % 65536)) ++ [0])) q
        (data.map BusEvent.recv) := by
  unfold AT45_ReadPage
  simp only [hres, Option.map_some', linearAddress_eq, clamp_eq_min]
  generalize linearAddress w.AT45 (page % 65536) (offset % 65536) = a
  generalize min (size % 65536) w.AT45.PageSize = n
  obtain ⟨hA6, q, hq, htr6⟩ := command_header d w1 AT45DB_RDARRAYHF a (by decide)
  revert hA6 htr6
  generalize (AT45_Spi d (AT45_Spi d (AT45_Spi d (AT45_Spi d (HAL_GPIO_WritePin d w1 false)
    AT45DB_RDARRAYHF).2 ((a >>> 16) % 256)).2 ((a >>> 8) % 256)).2 (a % 256)).2 = w6
  intro hA6 htr6
  obtain ⟨hA8, hlen, htr8⟩ := HAL_SPI_Receive_spec d n (AT45_Spi d w6 0).2
  obtain ⟨q0, q1, q2, q3, rfl⟩ : ∃ q0 q1 q2 q3, q = [q0, q1, q2, q3] := by
    match q, hq with
    | [q0, q1, q2, q3], _ => exact ⟨q0, q1, q2, q3, rfl⟩
  refine ⟨_, [q0, q1, q2, q3, (AT45_Spi d w6 0).1], _, rfl, ?_, rfl, hlen, rfl, ?_⟩
  · simp only [HAL_GPIO_WritePin_AT45, hA8, AT45_Spi_AT45, hA6]
  · simp only [HAL_GPIO_WritePin_trace, htr8, AT45_Spi_trace, htr6, commandTransaction,
      addressBytes, List.append_assoc, List.cons_append, List.nil_append,
      List.zipWith_cons_cons, List.zipWith_nil_right, Nat.reduceMod]

theorem AT45_ErasePage_run (d : Device σ) (fuel : Nat) (w w2 : World σ) (page : Nat)
    (h : AT45_ErasePage d fuel w page = some w2) :
    ∃ (w1 : World σ) (q : List Nat) (polls : List (Nat × Nat × Nat)) (r0 s1 s2 : Nat),
      AT45_Resume d fuel w = some w1 ∧ w2.AT45 = w1.AT45 ∧ q.length = 4 ∧
      w2.trace = w1.trace ++ (commandTransaction
          (AT45DB_PGERASE :: addressBytes (linearAddress w.AT45 (page % 65536) 0)) q [] ++
        (statusPolls polls ++ statusTransaction r0 s1 s2)) ∧
      s1.testBit 7 = true ∧ ∀ p ∈ polls, p.2.1.testBit 7 = false := by
  unfold AT45_ErasePage at h
  simp only [Option.bind_eq_some] at h
  obtain ⟨w1, hres, hw⟩ := h
  have haddr : (page % 65536) <<< w.AT45.Shift % 2 ^ 32 =
      linearAddress w.AT45 (page % 65536) 0 := by
    simp only [linearAddress, Nat.shiftLeft_eq, Nat.add_zero]
  rw [haddr] at hw
  revert hw
  generalize linearAddress w.AT45 (page % 65536) 0 = a
  intro hw
  obtain ⟨hA6, q, hq, htr6⟩ := command_header d w1 AT45DB_PGERASE a (by decide)
  obtain ⟨hA, polls, r0, s1, s2, htr, hrdy, hall⟩ := waitWhileBusy_spec d fuel _ w2 hw
  refine ⟨w1, q, polls, r0, s1, s2, hres, ?_, hq, ?_, hrdy, hall⟩
  · rw [hA]; simp only [HAL_GPIO_WritePin_AT45, hA6]
  · rw [htr]
    simp only [HAL_GPIO_WritePin_trace, htr6, commandTransaction, List.append_assoc,
      List.cons_append, List.nil_append]

/-- Once the resume step has returned, `AT45_ErasePage` sends its command bracket
and goes on as the trailing busy-wait. -/
theorem AT45_ErasePage_after_resume (d : Device σ) (fuel : Nat) (w w1 : World σ) (page : Nat)
    (hres : AT45_Resume d fuel w = some w1) :
    ∃ (w7 : World σ) (q : List Nat), q.length = 4 ∧
      AT45_ErasePage d fuel w page = waitWhileBusy d fuel w7 ∧ w7.AT45 = w1.AT45 ∧
      w7.trace = w1.trace ++ commandTransaction
        (AT45DB_PGERASE :: addressBytes (linearAddress w.AT45 (page % 65536) 0)) q [] := by
  have haddr : (page % 65536) <<< w.AT45.Shift % 2 ^ 32 =
      linearAddress w.AT45 (page % 65536) 0 := by
    simp only [linearAddress, Nat.shiftLeft_eq, Nat.add_zero]
  unfold AT45_ErasePage
  simp only [hres, Option.some_bind, haddr]
  generalize linearAddress w.AT45 (page % 65536) 0 = a
  obtain ⟨hA6, q, hq, htr6⟩ := command_header d w1 AT45DB_PGERASE a (by decide)
  refine ⟨_, q, hq, rfl, ?_, ?_⟩
  · rw [HAL_GPIO_WritePin_AT45, hA6]
  · simp only [HAL_GPIO_WritePin_trace, htr6, commandTransaction, List.append_assoc,
      List.cons_append, List.nil_append]

/-! ## Address translation and transfer length -/

theorem sentBytes_header_take (tx q : List Nat) (rest : List BusEvent)
    (h : tx.length = q.length) :
    (sentBytes (List.zipWith BusEvent.spi tx q ++ rest)).take tx.length = tx := by
  rw [sentBytes_append, sentBytes_zipWith tx q h]
  exact List.take_left tx _

theorem sentBytes_header_drop (tx q : List Nat) (rest : List BusEvent)
    (h : tx.length = q.length) :
    (sentBytes (List.zipWith BusEvent.spi tx q ++ rest)).drop tx.length = sentBytes rest := by
  rw [sentBytes_append, sentBytes_zipWith tx q h]
  exact List.drop_left tx _

/-- C7: for 16-bit `page` and `offset` and any descriptor, once the resume step
has returned: `AT45_WritePage` and `AT45_ReadPage` return, and the first four
bytes they send in their command bracket are the opcode followed by bits 23..16,
15..8 and 7..0 of `(page << Shift) + offset` taken in 32-bit arithmetic;
`AT45_ErasePage` sends a bracket holding exactly opcode 0x81 and the same three
bytes of `page << Shift` before it enters its trailing busy-wait, and when it
returns these are the first four bytes of its log after the resume step. -/
theorem page_ops_address_bytes (d : Device σ) (fuel : Nat) (w w1 : World σ)
    (page offset size : Nat) (buf : List Nat)
    (hpage : page < 65536) (hoff : offset < 65536)
    (hres : AT45_Resume d fuel w = some w1) :
    (∃ w2 cmd, AT45_WritePage d fuel w page offset size buf = some w2 ∧
      w2.trace = w1.trace ++ BusEvent.cs false :: cmd ∧
      (sentBytes cmd).take 4 =
        AT45DB_MNTHRUBF1 :: addressBytes (linearAddress w.AT45 page offset)) ∧
    (∃ r cmd, AT45_ReadPage d fuel w page offset size buf = some r ∧
      r.2.trace = w1.trace ++ BusEvent.cs false :: cmd ∧
      (sentBytes cmd).take 4 =
        AT45DB_RDARRAYHF :: addressBytes (linearAddress w.AT45 page offset)) ∧
    (∃ w7 cmd, AT45_ErasePage d fuel w page = waitWhileBusy d fuel w7 ∧
      w7.trace = w1.trace ++ BusEvent.cs false :: cmd ∧
      sentBytes cmd = AT45DB_PGERASE :: addressBytes (linearAddress w.AT45 page 0)) ∧
    (∀ w2, AT45_ErasePage d fuel w page = some w2 →
      ∃ cmd, w2.trace = w1.trace ++ BusEvent.cs false :: cmd ∧
        (sentBytes cmd).take 4 =
          AT45DB_PGERASE :: addressBytes (linearAddress w.AT45 page 0)) := by
  refine ⟨?_, ?_, ?_, ?_⟩
  · obtain ⟨w2, q, rs, hw, -, hq, -, htr⟩ :=
      AT45_WritePage_run d fuel w w1 page offset size buf hres
    rw [Nat.mod_eq_of_lt hpage, Nat.mod_eq_of_lt hoff] at htr
    refine ⟨w2, _, hw, htr, ?_⟩
    have h := sentBytes_header_take
      (AT45DB_MNTHRUBF1 :: addressBytes (linearAddress w.AT45 page offset)) q
      (List.zipWith BusEvent.spi
        (bufferBytes buf 0 (min (size % 65536) w.AT45.PageSize)) rs ++ [BusEvent.cs true])
      (by simp [addressBytes, hq])
    simpa [addressBytes] using h
  · obtain ⟨r, q, data, hr, -, hq, -, -, htr⟩ :=
      AT45_ReadPage_run d fuel w w1 page offset size buf hres
    rw [Nat.mod_eq_of_lt hpage, Nat.mod_eq_of_lt hoff] at htr
    refine ⟨r, _, hr, htr, ?_⟩
    obtain ⟨q0, q1, q2, q3, q4, rfl⟩ : ∃ q0 q1 q2 q3 q4, q = [q0, q1, q2, q3, q4] := by
      match q, hq with
      | [q0, q1, q2, q3, q4], _ => exact ⟨q0, q1, q2, q3, q4, rfl⟩
    simp [addressBytes, sentBytes]
  · obtain ⟨w7, q, hq, herase, -, htr⟩ := AT45_ErasePage_after_resume d fuel w w1 page hres
    rw [Nat.mod_eq_of_lt hpage] at htr
    refine ⟨w7, _, herase, htr, ?_⟩
    simp only [sentBytes_append, List.nil_append, sentBytes, List.append_nil]
    exact sentBytes_zipWith _ q (by simp [addressBytes, hq])
  · intro w2 hw
    obtain ⟨v1, q, polls, r0, s1, s2, hres2, -, hq, htr, -, -⟩ :=
      AT45_ErasePage_run d fuel w w2 page hw
    rw [hres] at hres2
    cases hres2
    rw [Nat.mod_eq_of_lt hpage] at htr
    refine ⟨_, htr, ?_⟩
    have h := sentBytes_header_take
      (AT45DB_PGERASE :: addressBytes (linearAddress w.AT45 page 0)) q
      ([BusEvent.cs true] ++ (statusPolls polls ++ statusTransaction r0 s1 s2))
      (by simp [addressBytes, hq])
    simpa [addressBytes] using h

/-- Witness for C7: page 3, offset 5 on the 16 Mbit native geometry (shift 10).
A write and a read send address 0x000C05 after their opcode, and an erase of
page 3, run to completion, sends 81 00 0C 00. -/
theorem page_ops_address_bytes_witness :
    (∃ w2 cmd,
      AT45_WritePage scripted 1 (worldWith { FlashSize_MBit := 16, PageSize := 528, Pages := 4096, Shift := 10 } [0x00, 0x00, 0x80, 0x00])
        3 5 4 [0xDE, 0xAD, 0xBE, 0xEF] = some w2 ∧
      w2.trace = ((AT45_Resume scripted 1
        (worldWith { FlashSize_MBit := 16, PageSize := 528, Pages := 4096, Shift := 10 } [0x00, 0x00, 0x80, 0x00])).getD (startWorld [])).trace ++
          BusEvent.cs false :: cmd ∧
      (sentBytes cmd).take 4 = [0x82, 0x00, 0x0C, 0x05]) ∧
    (∃ r cmd,
      AT45_ReadPage scripted 1 (worldWith { FlashSize_MBit := 16, PageSize := 528, Pages := 4096, Shift := 10 } [0x00, 0x00, 0x80, 0x00])
        3 5 4 [] = some r ∧
      r.2.trace = ((AT45_Resume scripted 1
        (worldWith { FlashSize_MBit := 16, PageSize := 528, Pages := 4096, Shift := 10 } [0x00, 0x00, 0x80, 0x00])).getD (startWorld [])).trace ++
          BusEvent.cs false :: cmd ∧
      (sentBytes cmd).take 4 = [0x0B, 0x00, 0x0C, 0x05]) ∧
    (∃ cmd,
      ((AT45_ErasePage scripted 1
        (worldWith { FlashSize_MBit := 16, PageSize := 528, Pages := 4096, Shift := 10 } [0x00, 0x00, 0x80, 0x00, 0x00, 0x00, 0x00, 0x00, 0x00, 0x80, 0x00])
        3).getD (startWorld [])).trace = ((AT45_Resume scripted 1
        (worldWith { FlashSize_MBit := 16, PageSize := 528, Pages := 4096, Shift := 10 } [0x00, 0x00, 0x80, 0x00, 0x00, 0x00, 0x00, 0x00, 0x00, 0x80, 0x00])).getD
          (startWorld [])).trace ++ BusEvent.cs false :: cmd ∧
      (sentBytes cmd).take 4 = [0x81, 0x00, 0x0C, 0x00]) := by
  have hw := page_ops_address_bytes scripted 1 (worldWith { FlashSize_MBit := 16, PageSize := 528, Pages := 4096, Shift := 10 } [0x00, 0x00, 0x80, 0x00])
    ((AT45_Resume scripted 1 (worldWith { FlashSize_MBit := 16, PageSize := 528, Pages := 4096, Shift := 10 } [0x00, 0x00, 0x80, 0x00])).getD (startWorld []))
    3 5 4 [0xDE, 0xAD, 0xBE, 0xEF] (by decide) (by decide) (by decide)
  have hr := page_ops_address_bytes scripted 1 (worldWith { FlashSize_MBit := 16, PageSize := 528, Pages := 4096, Shift := 10 } [0x00, 0x00, 0x80, 0x00])
    ((AT45_Resume scripted 1 (worldWith { FlashSize_MBit := 16, PageSize := 528, Pages := 4096, Shift := 10 } [0x00, 0x00, 0x80, 0x00])).getD (startWorld []))
    3 5 4 [] (by decide) (by decide) (by decide)
  have he := page_ops_address_bytes scripted 1
    (worldWith { FlashSize_MBit := 16, PageSize := 528, Pages := 4096, Shift := 10 } [0x00, 0x00, 0x80, 0x00, 0x00, 0x00, 0x00, 0x00, 0x00, 0x80, 0x00])
    ((AT45_Resume scripted 1
      (worldWith { FlashSize_MBit := 16, PageSize := 528, Pages := 4096, Shift := 10 } [0x00, 0x00, 0x80, 0x00, 0x00, 0x00, 0x00, 0x00, 0x00, 0x80, 0x00])).getD
        (startWorld []))
    3 0 0 [] (by decide) (by decide) (by decide)
  obtain ⟨w2, cmd, h1, h2, h3⟩ := hw.1
  obtain ⟨r, cmd2, k1, k2, k3⟩ := hr.2.1
  obtain ⟨cmd3, e1, e2⟩ := he.2.2.2
    ((AT45_ErasePage scripted 1
      (worldWith { FlashSize_MBit := 16, PageSize := 528, Pages := 4096, Shift := 10 } [0x00, 0x00, 0x80, 0x00, 0x00, 0x00, 0x00, 0x00, 0x00, 0x80, 0x00])
      3).getD (startWorld [])) (by decide)
  exact ⟨⟨w2, cmd, h1, h2, h3.trans (by decide)⟩, ⟨r, cmd2, k1, k2, k3.trans (by decide)⟩,
    ⟨cmd3, e1, e2.trans (by decide)⟩⟩

/-- Number of data bytes moved by `AT45_WritePage` and `AT45_ReadPage`. -/
theorem page_ops_transfer_length_aux (d : Device σ) (fuel : Nat) (w w1 : World σ)
    (page offset size : Nat) (buf : List Nat)
    (hsize : size < 65536)
    (hres : AT45_Resume d fuel w = some w1) :
    (∃ w2 cmd, AT45_WritePage d fuel w page offset size buf = some w2 ∧
      w2.trace = w1.trace ++ BusEvent.cs false :: cmd ∧
      ((sentBytes cmd).drop 4).length = min size w.AT45.PageSize) ∧
    (∃ r cmd, AT45_ReadPage d fuel w page offset size buf = some r ∧
      r.2.trace = w1.trace ++ BusEvent.cs false :: cmd ∧
      (receivedBytes cmd).length = min size w.AT45.PageSize) := by
  refine ⟨?_, ?_⟩
  · obtain ⟨w2, q, rs, hw, -, hq, hrs, htr⟩ :=
      AT45_WritePage_run d fuel w w1 page offset size buf hres
    rw [Nat.mod_eq_of_lt hsize] at htr hrs
    refine ⟨w2, _, hw, htr, ?_⟩
    have h := sentBytes_header_drop
      (AT45DB_MNTHRUBF1 :: addressBytes (linearAddress w.AT45 (page % 65536) (offset % 65536))) q
      (List.zipWith BusEvent.spi
        (bufferBytes buf 0 (min size w.AT45.PageSize)) rs ++ [BusEvent.cs true])
      (by simp [addressBytes, hq])
    have hlen : (AT45DB_MNTHRUBF1 ::
        addressBytes (linearAddress w.AT45 (page % 65536) (offset % 65536))).length = 4 := rfl
    rw [hlen] at h
    rw [List.append_assoc, h, sentBytes_append,
      sentBytes_zipWith _ _ (by rw [bufferBytes_length, hrs])]
    simp [sentBytes, bufferBytes_length]
  · obtain ⟨r, q, data, hr, -, hq, hdata, -, htr⟩ :=
      AT45_ReadPage_run d fuel w w1 page offset size buf hres
    rw [Nat.mod_eq_of_lt hsize] at hdata
    refine ⟨r, _, hr, htr, ?_⟩
    rw [receivedBytes_append, receivedBytes_append, receivedBytes_zipWith,
      receivedBytes_map_recv]
    simp [receivedBytes, hdata]

/-- C8: for a 16-bit `size`, `AT45_WritePage` sends exactly `min size PageSize`
data bytes after the opcode and the three address bytes, and `AT45_ReadPage`
clocks in exactly `min size PageSize` bytes, whatever `page` and `offset` are:
a request larger than `PageSize` moves `PageSize` bytes, any other request is
moved in full. -/
theorem page_ops_transfer_length (d : Device σ) (fuel : Nat) (w w1 : World σ)
    (page offset size : Nat) (buf : List Nat)
    (hsize : size < 65536)
    (hres : AT45_Resume d fuel w = some w1) :
    (∃ w2 cmd, AT45_WritePage d fuel w page offset size buf = some w2 ∧
      w2.trace = w1.trace ++ BusEvent.cs false :: cmd ∧
      ((sentBytes cmd).drop 4).length = min size w.AT45.PageSize ∧
      (w.AT45.PageSize < size → ((sentBytes cmd).drop 4).length = w.AT45.PageSize) ∧
      (size ≤ w.AT45.PageSize → ((sentBytes cmd).drop 4).length = size)) ∧
    (∃ r cmd, AT45_ReadPage d fuel w page offset size buf = some r ∧
      r.2.trace = w1.trace ++ BusEvent.cs false :: cmd ∧
      (receivedBytes cmd).length = min size w.AT45.PageSize ∧
      (w.AT45.PageSize < size → (receivedBytes cmd).length = w.AT45.PageSize) ∧
      (size ≤ w.AT45.PageSize → (receivedBytes cmd).length = size)) := by
  obtain ⟨⟨w2, cmd, hw, htr, hlen⟩, ⟨r, cmd2, hr, htr2, hlen2⟩⟩ :=
    page_ops_transfer_length_aux d fuel w w1 page offset size buf hsize hres
  refine ⟨⟨w2, cmd, hw, htr, hlen, ?_, ?_⟩, ⟨r, cmd2, hr, htr2, hlen2, ?_, ?_⟩⟩
  · intro h; rw [hlen]; exact Nat.min_eq_right (Nat.le_of_lt h)
  · intro h; rw [hlen]; exact Nat.min_eq_left h
  · intro h; rw [hlen2]; exact Nat.min_eq_right (Nat.le_of_lt h)
  · intro h; rw [hlen2]; exact Nat.min_eq_left h

/-- Witness for C8: a request of 600 bytes on 528-byte pages. -/
theorem page_ops_transfer_length_witness :
    ∃ r cmd,
      AT45_ReadPage scripted 1
        (worldWith { FlashSize_MBit := 16, PageSize := 528, Pages := 4096, Shift := 10 }
          [0x00, 0x00, 0x80, 0x00]) 3 5 600 [] = some r ∧
      r.2.trace = ((AT45_Resume scripted 1
        (worldWith { FlashSize_MBit := 16, PageSize := 528, Pages := 4096, Shift := 10 }
          [0x00, 0x00, 0x80, 0x00])).getD (startWorld [])).trace ++ BusEvent.cs false :: cmd ∧
      (receivedBytes cmd).length = 528 := by
  obtain ⟨r, cmd, h1, h2, h3⟩ := (page_ops_transfer_length scripted 1
    (worldWith { FlashSize_MBit := 16, PageSize := 528, Pages := 4096, Shift := 10 }
      [0x00, 0x00, 0x80, 0x00])
    ((AT45_Resume scripted 1
      (worldWith { FlashSize_MBit := 16, PageSize := 528, Pages := 4096, Shift := 10 }
        [0x00, 0x00, 0x80, 0x00])).getD (startWorld []))
    3 5 600 [] (by decide) (by decide)).2
  exact ⟨r, cmd, h1, h2, h3.1.trans (by decide)⟩


/-- C9 fails as stated: on 264-byte pages a write of 600 bytes at offset 100 is
clamped to 264 bytes, so offset + length is 364; and a write of 2 bytes at offset
263 is sent in full, so offset + length is 265. -/
theorem transfer_crosses_page_end :
    (AT45_WritePage scripted 1
      (worldWith { FlashSize_MBit := 1, PageSize := 264, Pages := 512, Shift := 9 }
        [0x00, 0x00, 0x80, 0x00]) 0 100 600 []).map
      (fun w2 => decide (100 + ((sentBytes w2.trace).drop 8).length ≤ 264)) = some false ∧
    (AT45_WritePage scripted 1
      (worldWith { FlashSize_MBit := 1, PageSize := 264, Pages := 512, Shift := 9 }
        [0x00, 0x00, 0x80, 0x00]) 0 263 2 [0xAA, 0xBB]).map
      (fun w2 => sentBytes w2.trace) =
        some [0xAB, 0xD7, 0x00, 0x00, 0x82, 0x00, 0x01, 0x07, 0xAA, 0xBB] := by
  set_option maxRecDepth 100000 in decide

/-- C9 as amended: for a 16-bit `size`, the length `AT45_WritePage` and
`AT45_ReadPage` transfer after clamping is exactly `min size PageSize`, hence at
most `PageSize`; `offset + length` stays within `PageSize` when the request itself
does (`offset + size ≤ PageSize`) or when `offset = 0`. -/
theorem page_ops_length_within_page (d : Device σ) (fuel : Nat) (w w1 : World σ)
    (page offset size : Nat) (buf : List Nat)
    (hsize : size < 65536)
    (hres : AT45_Resume d fuel w = some w1) :
    (∃ w2 cmd, AT45_WritePage d fuel w page offset size buf = some w2 ∧
      w2.trace = w1.trace ++ BusEvent.cs false :: cmd ∧
      ((sentBytes cmd).drop 4).length = min size w.AT45.PageSize ∧
      ((sentBytes cmd).drop 4).length ≤ w.AT45.PageSize ∧
      (offset + size ≤ w.AT45.PageSize ∨ offset = 0 →
        offset + ((sentBytes cmd).drop 4).length ≤ w.AT45.PageSize)) ∧
    (∃ r cmd, AT45_ReadPage d fuel w page offset size buf = some r ∧
      r.2.trace = w1.trace ++ BusEvent.cs false :: cmd ∧
      (receivedBytes cmd).length = min size w.AT45.PageSize ∧
      (receivedBytes cmd).length ≤ w.AT45.PageSize ∧
      (offset + size ≤ w.AT45.PageSize ∨ offset = 0 →
        offset + (receivedBytes cmd).length ≤ w.AT45.PageSize)) := by
  obtain ⟨⟨w2, cmd, hw, htr, hlen⟩, ⟨r, cmd2, hr, htr2, hlen2⟩⟩ :=
    page_ops_transfer_length_aux d fuel w w1 page offset size buf hsize hres
  refine ⟨⟨w2, cmd, hw, htr, hlen, ?_, ?_⟩, ⟨r, cmd2, hr, htr2, hlen2, ?_, ?_⟩⟩
  · rw [hlen]; exact Nat.min_le_right _ _
  · rw [hlen]; intro h
    have := Nat.min_le_left size w.AT45.PageSize
    have := Nat.min_le_right size w.AT45.PageSize
    omega
  · rw [hlen2]; exact Nat.min_le_right _ _
  · rw [hlen2]; intro h
    have := Nat.min_le_left size w.AT45.PageSize
    have := Nat.min_le_right size w.AT45.PageSize
    omega

/-- Witness for C9 as amended: 4 bytes at offset 5 of a 528-byte page are sent in
full and end inside the page. -/
theorem page_ops_length_within_page_witness :
    ∃ w2 cmd,
      AT45_WritePage scripted 1 (worldWith { FlashSize_MBit := 16, PageSize := 528, Pages := 4096, Shift := 10 } [0x00, 0x00, 0x80, 0x00])
        3 5 4 [0xDE, 0xAD, 0xBE, 0xEF] = some w2 ∧
      w2.trace = ((AT45_Resume scripted 1
        (worldWith { FlashSize_MBit := 16, PageSize := 528, Pages := 4096, Shift := 10 } [0x00, 0x00, 0x80, 0x00])).getD (startWorld [])).trace ++
          BusEvent.cs false :: cmd ∧
      ((sentBytes cmd).drop 4).length = 4 ∧
      5 + ((sentBytes cmd).drop 4).length ≤ 528 := by
  obtain ⟨w2, cmd, h1, h2, h3, -, h5⟩ := (page_ops_length_within_page scripted 1
    (worldWith { FlashSize_MBit := 16, PageSize := 528, Pages := 4096, Shift := 10 } [0x00, 0x00, 0x80, 0x00])
    ((AT45_Resume scripted 1 (worldWith { FlashSize_MBit := 16, PageSize := 528, Pages := 4096, Shift := 10 } [0x00, 0x00, 0x80, 0x00])).getD (startWorld []))
    3 5 4 [0xDE, 0xAD, 0xBE, 0xEF] (by decide) (by decide)).1
  exact ⟨w2, cmd, h1, h2, h3.trans (by decide), h5 (Or.inl (by decide))⟩

/-! ## Waiting for the erase to finish -/

/-- A busy-wait that came back within `n` polls comes back with the same world
under any larger bound. -/
theorem waitWhileBusy_mono (d : Device σ) (n m : Nat) (w w2 : World σ) (hnm : n ≤ m)
    (h : waitWhileBusy d n w = some w2) : waitWhileBusy d m w = some w2 := by
  induction n generalizing w m with
  | zero => simp [waitWhileBusy] at h
  | succ n ih =>
    cases m with
    | zero => omega
    | succ m =>
      unfold waitWhileBusy at h ⊢
      simp only at h ⊢
      split_ifs at h ⊢ with hb
      · exact ih m _ (by omega) h
      · exact h

theorem AT45_Resume_mono (d : Device σ) (n m : Nat) (w w1 : World σ) (hnm : n ≤ m)
    (h : AT45_Resume d n w = some w1) : AT45_Resume d m w = some w1 := by
  unfold AT45_Resume at h ⊢
  exact waitWhileBusy_mono d n m _ w1 hnm h

theorem AT45_ErasePage_mono (d : Device σ) (n m : Nat) (w w2 : World σ) (page : Nat)
    (hnm : n ≤ m) (h : AT45_ErasePage d n w page = some w2) :
    AT45_ErasePage d m w page = some w2 := by
  unfold AT45_ErasePage at h ⊢
  simp only [Option.bind_eq_some] at h ⊢
  obtain ⟨w1, hres, hw⟩ := h
  exact ⟨w1, AT45_Resume_mono d n m w w1 hnm hres, waitWhileBusy_mono d n m _ w2 hnm hw⟩

/-- C10: whenever `AT45_ErasePage` returns, its bus log after the resume step is
the erase command bracket followed only by status reads, the last of which
answered a first byte with RDY (bit 7) set while every earlier one answered RDY
clear; the result does not depend on the poll bound once it is large enough,
and `block_device_erase` returns exactly such a run of `AT45_ErasePage`. -/
theorem AT45_ErasePage_returns_after_ready (d : Device σ) (fuel : Nat) (w w2 : World σ)
    (page : Nat) (h : AT45_ErasePage d fuel w page = some w2) :
    (∃ (w1 : World σ) (q : List Nat) (polls : List (Nat × Nat × Nat)) (r0 s1 s2 : Nat),
      AT45_Resume d fuel w = some w1 ∧ q.length = 4 ∧
      w2.trace = w1.trace ++ (commandTransaction
          (AT45DB_PGERASE :: addressBytes (linearAddress w.AT45 (page % 65536) 0)) q [] ++
        (statusPolls polls ++ statusTransaction r0 s1 s2)) ∧
      s1.testBit 7 = true ∧ ∀ p ∈ polls, p.2.1.testBit 7 = false) ∧
    (∀ bound, fuel ≤ bound → AT45_ErasePage d bound w page = some w2) ∧
    (∀ (block : Nat) (r : Int × World σ), block_device_erase d fuel w block = some r →
      AT45_ErasePage d fuel w (block % 2 ^ 32 % 65536) = some r.2) := by
  refine ⟨?_, ?_, ?_⟩
  · obtain ⟨w1, q, polls, r0, s1, s2, hres, -, hq, htr, hrdy, hall⟩ :=
      AT45_ErasePage_run d fuel w w2 page h
    exact ⟨w1, q, polls, r0, s1, s2, hres, hq, htr, hrdy, hall⟩
  · intro bound hb
    exact AT45_ErasePage_mono d fuel bound w w2 page hb h
  · intro block r hr
    unfold block_device_erase at hr
    simp only [Option.map_eq_some'] at hr
    obtain ⟨v, hv, rfl⟩ := hr
    exact hv

/-- Witness for C10: the chip answers busy to the first status read after the
erase command and ready to the second. -/
theorem AT45_ErasePage_returns_after_ready_witness :
    ∃ (w1 : World (List Nat)) (q : List Nat) (polls : List (Nat × Nat × Nat)) (r0 s1 s2 : Nat),
      AT45_Resume scripted 2
        (worldWith { FlashSize_MBit := 16, PageSize := 528, Pages := 4096, Shift := 10 }
          [0x00, 0x00, 0x80, 0x00, 0x00, 0x00, 0x00, 0x00, 0x00, 0x00, 0x00, 0x00, 0x80, 0x00])
        = some w1 ∧ q.length = 4 ∧
      ((AT45_ErasePage scripted 2
        (worldWith { FlashSize_MBit := 16, PageSize := 528, Pages := 4096, Shift := 10 }
          [0x00, 0x00, 0x80, 0x00, 0x00, 0x00, 0x00, 0x00, 0x00, 0x00, 0x00, 0x00, 0x80, 0x00])
        3).getD (startWorld [])).trace = w1.trace ++ (commandTransaction
          (AT45DB_PGERASE :: addressBytes (linearAddress
            { FlashSize_MBit := 16, PageSize := 528, Pages := 4096, Shift := 10 } (3 % 65536) 0))
          q [] ++ (statusPolls polls ++ statusTransaction r0 s1 s2)) ∧
      s1.testBit 7 = true ∧ ∀ p ∈ polls, p.2.1.testBit 7 = false :=
  (AT45_ErasePage_returns_after_ready scripted 2
    (worldWith { FlashSize_MBit := 16, PageSize := 528, Pages := 4096, Shift := 10 }
      [0x00, 0x00, 0x80, 0x00, 0x00, 0x00, 0x00, 0x00, 0x00, 0x00, 0x00, 0x00, 0x80, 0x00])
    ((AT45_ErasePage scripted 2
      (worldWith { FlashSize_MBit := 16, PageSize := 528, Pages := 4096, Shift := 10 }
        [0x00, 0x00, 0x80, 0x00, 0x00, 0x00, 0x00, 0x00, 0x00, 0x00, 0x00, 0x00, 0x80, 0x00])
      3).getD (startWorld []))
    3 (by decide)).1


/-! ## LittleFS glue: return codes and block numbers -/

/-- C12: whenever one of `block_device_read`, `block_device_prog`,
`block_device_erase` returns, its return code is 0, for every argument tuple and
every chip; `block_device_sync` always returns 0. -/
theorem block_device_returns_zero (d : Device σ) (fuel : Nat) (w : World σ)
    (block off size : Nat) (buffer : List Nat) :
    (∀ r, block_device_read d fuel w block off buffer size = some r → r.1 = 0) ∧
    (∀ r, block_device_prog d fuel w block off buffer size = some r → r.1 = 0) ∧
    (∀ r, block_device_erase d fuel w block = some r → r.1 = 0) ∧
    (block_device_sync w).1 = 0 := by
  refine ⟨?_, ?_, ?_, rfl⟩
  · intro r hr
    unfold block_device_read at hr
    simp only [Option.map_eq_some'] at hr
    obtain ⟨v, -, rfl⟩ := hr
    rfl
  · intro r hr
    unfold block_device_prog at hr
    simp only [Option.map_eq_some'] at hr
    obtain ⟨v, -, rfl⟩ := hr
    rfl
  · intro r hr
    unfold block_device_erase at hr
    simp only [Option.map_eq_some'] at hr
    obtain ⟨v, -, rfl⟩ := hr
    rfl

/-- Witness for C12: a read of 4 bytes at block 3, offset 5 returns code 0 (the
fallback code 1 would show if the call had not returned). -/
theorem block_device_returns_zero_witness :
    ((block_device_read scripted 1 (worldWith { FlashSize_MBit := 16, PageSize := 528, Pages := 4096, Shift := 10 } [0x00, 0x00, 0x80, 0x00])
      3 5 [] 4).getD (1, [], startWorld [])).1 = 0 :=
  (block_device_returns_zero scripted 1 (worldWith { FlashSize_MBit := 16, PageSize := 528, Pages := 4096, Shift := 10 } [0x00, 0x00, 0x80, 0x00])
    3 5 4 []).1 _ (by decide)

/-- The three glue functions hand `block mod 65536` (and `off`, `size` modulo
65536) to the page operations. -/
theorem block_device_narrowing (d : Device σ) (fuel : Nat) (w : World σ)
    (block off size : Nat) (buffer : List Nat) :
    block_device_read d fuel w block off buffer size =
      (AT45_ReadPage d fuel w (block % 2 ^ 32 % 65536) (off % 2 ^ 32 % 65536)
        (size % 2 ^ 32 % 65536) buffer).map (fun r => ((0 : Int), r.1, r.2)) ∧
    block_device_prog d fuel w block off buffer size =
      (AT45_WritePage d fuel w (block % 2 ^ 32 % 65536) (off % 2 ^ 32 % 65536)
        (size % 2 ^ 32 % 65536) buffer).map (fun v => ((0 : Int), v)) ∧
    block_device_erase d fuel w block =
      (AT45_ErasePage d fuel w (block % 2 ^ 32 % 65536)).map (fun v => ((0 : Int), v)) :=
  ⟨rfl, rfl, rfl⟩

theorem mod_mod_small (n : Nat) (h : n < 65536) : n % 2 ^ 32 % 65536 = n := by
  omega

theorem HAL_GPIO_WritePin_chip (d : Device σ) (w : World σ) (b : Bool) :
    (HAL_GPIO_WritePin d w b).chip = d.cs w.chip b := rfl

theorem AT45_Spi_chip (d : Device σ) (w : World σ) (x : Nat) :
    (AT45_Spi d w x).2.chip = (d.exchange w.chip (x % 256)).1 := rfl

theorem AT45_Spi_fst (d : Device σ) (w : World σ) (x : Nat) :
    (AT45_Spi d w x).1 = (d.exchange w.chip (x % 256)).2 % 256 := rfl

/-- On a buffer of bytes that is long enough, `HAL_SPI_Transmit` sends the first
`n` entries as they are. -/
theorem bufferBytes_eq_take (buf : List Nat) (n : Nat) (hn : n ≤ buf.length)
    (hb : ∀ b ∈ buf, b < 256) : bufferBytes buf 0 n = buf.take n := by
  have key : ∀ (n i : Nat), i + n ≤ buf.length →
      bufferBytes buf i n = (buf.drop i).take n := by
    intro n
    induction n with
    | zero => intro i _; simp [bufferBytes]
    | succ n ih =>
      intro i hi
      have hlt : i < buf.length := by omega
      have hdrop : buf.drop i = buf[i] :: buf.drop (i + 1) := List.drop_eq_getElem_cons hlt
      have hget : buf.getD i 0 = buf[i] := by
        simp [List.getD, List.getElem?_eq_getElem hlt]
      have hbyte : buf[i] < 256 := hb _ (List.getElem_mem hlt)
      rw [bufferBytes, hdrop, List.take_succ_cons, hget, Nat.mod_eq_of_lt hbyte,
        ih (i + 1) (by omega)]
  simpa using key n 0 (by omega)

/-- C15: for 16-bit `page`, `offset` and `size`, the command bracket of
`AT45_ReadPage` after the resume step is exactly: opcode 0x0B, the three address
bytes of `(page << Shift) + offset` most significant first, one dummy byte 0,
then `min size PageSize` bytes clocked in, which become the first entries of the
caller's buffer; the bus log ends with that bracket, so no status poll follows. -/
theorem AT45_ReadPage_bracket (d : Device σ) (fuel : Nat) (w w1 : World σ)
    (page offset size : Nat) (buf : List Nat)
    (hpage : page < 65536) (hoff : offset < 65536) (hsize : size < 65536)
    (hres : AT45_Resume d fuel w = some w1) :
    ∃ (r : List Nat × World σ) (q data : List Nat),
      AT45_ReadPage d fuel w page offset size buf = some r ∧
      q.length = 5 ∧ data.length = min size w.AT45.PageSize ∧
      r.2.trace = w1.trace ++ commandTransaction
        (AT45DB_RDARRAYHF :: (addressBytes (linearAddress w.AT45 page offset) ++ [0])) q
        (data.map BusEvent.recv) ∧
      r.1 = data ++ buf.drop (min size w.AT45.PageSize) := by
  obtain ⟨r, q, data, hr, -, hq, hdata, hbuf, htr⟩ :=
    AT45_ReadPage_run d fuel w w1 page offset size buf hres
  rw [Nat.mod_eq_of_lt hpage, Nat.mod_eq_of_lt hoff] at htr
  rw [Nat.mod_eq_of_lt hsize] at hdata hbuf
  exact ⟨r, q, data, hr, hq, hdata, htr, hbuf⟩

/-- Witness for C15: reading 4 bytes at page 3, offset 5. -/
theorem AT45_ReadPage_bracket_witness :
    ∃ (r : List Nat × World (List Nat)) (q data : List Nat),
      AT45_ReadPage scripted 1
        (worldWith { FlashSize_MBit := 16, PageSize := 528, Pages := 4096, Shift := 10 }
          [0x00, 0x00, 0x80, 0x00]) 3 5 4 [] = some r ∧
      q.length = 5 ∧ data.length = 4 ∧
      sentBytes (commandTransaction
        (AT45DB_RDARRAYHF :: (addressBytes (linearAddress
          { FlashSize_MBit := 16, PageSize := 528, Pages := 4096, Shift := 10 } 3 5) ++ [0])) q
        (data.map BusEvent.recv)) = [0x0B, 0x00, 0x0C, 0x05, 0x00] := by
  obtain ⟨r, q, data, h1, h2, h3, -, -⟩ := AT45_ReadPage_bracket scripted 1
    (worldWith { FlashSize_MBit := 16, PageSize := 528, Pages := 4096, Shift := 10 }
      [0x00, 0x00, 0x80, 0x00])
    ((AT45_Resume scripted 1
      (worldWith { FlashSize_MBit := 16, PageSize := 528, Pages := 4096, Shift := 10 }
        [0x00, 0x00, 0x80, 0x00])).getD (startWorld []))
    3 5 4 [] (by decide) (by decide) (by decide) (by decide)
  refine ⟨r, q, data, h1, h2, h3.trans (by decide), ?_⟩
  simp only [commandTransaction, sentBytes, sentBytes_append, sentBytes_map_recv]
  rw [sentBytes_zipWith _ _ (by simp [addressBytes, h2])]
  decide

/-- C16: for 16-bit `page`, `offset` and `size` and a caller's buffer of bytes
holding at least `min size PageSize` entries, the command bracket of
`AT45_WritePage` after the resume step is exactly: opcode 0x82, the three
address bytes of `(page << Shift) + offset` most significant first, then the
first `min size PageSize` bytes of the buffer in order, and nothing else. -/
theorem AT45_WritePage_bracket (d : Device σ) (fuel : Nat) (w w1 : World σ)
    (page offset size : Nat) (buf : List Nat)
    (hpage : page < 65536) (hoff : offset < 65536) (hsize : size < 65536)
    (hbuf : min size w.AT45.PageSize ≤ buf.length) (hbytes : ∀ b ∈ buf, b < 256)
    (hres : AT45_Resume d fuel w = some w1) :
    ∃ (w2 : World σ) (q rs : List Nat),
      AT45_WritePage d fuel w page offset size buf = some w2 ∧
      q.length = 4 ∧ rs.length = min size w.AT45.PageSize ∧
      w2.trace = w1.trace ++ commandTransaction
        (AT45DB_MNTHRUBF1 :: addressBytes (linearAddress w.AT45 page offset)) q
        (List.zipWith BusEvent.spi (buf.take (min size w.AT45.PageSize)) rs) ∧
      sentBytes (commandTransaction
        (AT45DB_MNTHRUBF1 :: addressBytes (linearAddress w.AT45 page offset)) q
        (List.zipWith BusEvent.spi (buf.take (min size w.AT45.PageSize)) rs)) =
        AT45DB_MNTHRUBF1 :: (addressBytes (linearAddress w.AT45 page offset) ++
          buf.take (min size w.AT45.PageSize)) := by
  obtain ⟨w2, q, rs, hw, -, hq, hrs, htr⟩ :=
    AT45_WritePage_run d fuel w w1 page offset size buf hres
  rw [Nat.mod_eq_of_lt hpage, Nat.mod_eq_of_lt hoff] at htr
  rw [Nat.mod_eq_of_lt hsize] at htr hrs
  rw [bufferBytes_eq_take buf _ hbuf hbytes] at htr
  refine ⟨w2, q, rs, hw, hq, hrs, htr, ?_⟩
  simp only [commandTransaction, sentBytes, sentBytes_append]
  rw [sentBytes_zipWith _ _ (by simp [addressBytes, hq]),
    sentBytes_zipWith _ _ (by rw [List.length_take, hrs]; exact Nat.min_eq_left hbuf)]
  simp

/-- Witness for C16: writing DE AD BE EF at page 3, offset 5. -/
theorem AT45_WritePage_bracket_witness :
    ∃ (w2 : World (List Nat)) (q rs : List Nat),
      AT45_WritePage scripted 1
        (worldWith { FlashSize_MBit := 16, PageSize := 528, Pages := 4096, Shift := 10 }
          [0x00, 0x00, 0x80, 0x00]) 3 5 4 [0xDE, 0xAD, 0xBE, 0xEF] = some w2 ∧
      sentBytes (commandTransaction
        (AT45DB_MNTHRUBF1 :: addressBytes (linearAddress
          { FlashSize_MBit := 16, PageSize := 528, Pages := 4096, Shift := 10 } 3 5)) q
        (List.zipWith BusEvent.spi ([0xDE, 0xAD, 0xBE, 0xEF].take (min 4 528)) rs)) =
        [0x82, 0x00, 0x0C, 0x05, 0xDE, 0xAD, 0xBE, 0xEF] := by
  obtain ⟨w2, q, rs, h1, -, -, -, h5⟩ := AT45_WritePage_bracket scripted 1
    (worldWith { FlashSize_MBit := 16, PageSize := 528, Pages := 4096, Shift := 10 }
      [0x00, 0x00, 0x80, 0x00])
    ((AT45_Resume scripted 1
      (worldWith { FlashSize_MBit := 16, PageSize := 528, Pages := 4096, Shift := 10 }
        [0x00, 0x00, 0x80, 0x00])).getD (startWorld []))
    3 5 4 [0xDE, 0xAD, 0xBE, 0xEF] (by decide) (by decide) (by decide) (by decide)
    (by decide) (by decide)
  exact ⟨w2, q, rs, h1, h5.trans (by decide)⟩

/-- Bus log of the resume step: a bracket holding only opcode 0xAB, then status
reads up to and including the first one that reports ready. -/
theorem resume_step_shape (d : Device σ) (fuel : Nat) (w w1 : World σ)
    (h : AT45_Resume d fuel w = some w1) (rest : List BusEvent) :
    ∃ (q : Nat) (polls : List (Nat × Nat × Nat)) (r0 s1 s2 : Nat),
      w1.trace ++ rest = w.trace ++ (commandTransaction [AT45DB_RESUME] [q] [] ++
        (statusPolls polls ++ (statusTransaction r0 s1 s2 ++ rest))) ∧
      s1.testBit 7 = true ∧ ∀ p ∈ polls, p.2.1.testBit 7 = false := by
  obtain ⟨-, q, polls, r0, s1, s2, htr, hrdy, hall⟩ := AT45_Resume_spec d fuel w w1 h
  refine ⟨q, polls, r0, s1, s2, ?_, hrdy, hall⟩
  rw [htr]
  simp only [List.append_assoc]

/-- C18: once the resume step of a page operation has returned, its bus log is a
bracket holding only opcode 0xAB followed by status reads of which the last one,
and only the last one, reports RDY set; `AT45_WritePage` and `AT45_ReadPage` then
return, and `AT45_ErasePage` goes on to its trailing busy-wait, each with a log
that continues that of the resume step with a fresh chip-select and the
operation's own opcode.  Whenever one of the three operations returns, its whole
log has this shape, so the opcode is never sent before a status read has
reported ready. -/
theorem page_ops_resume_first (d : Device σ) (fuel : Nat) (w w1 : World σ)
    (page offset size : Nat) (buf : List Nat)
    (hres : AT45_Resume d fuel w = some w1) :
    (∃ (q : Nat) (polls : List (Nat × Nat × Nat)) (r0 s1 s2 : Nat),
      w1.trace = w.trace ++ (commandTransaction [AT45DB_RESUME] [q] [] ++
        (statusPolls polls ++ statusTransaction r0 s1 s2)) ∧
      s1.testBit 7 = true ∧ ∀ p ∈ polls, p.2.1.testBit 7 = false) ∧
    (∃ (w2 : World σ) (x : Nat) (rest : List BusEvent),
      AT45_WritePage d fuel w page offset size buf = some w2 ∧
      w2.trace = w1.trace ++ BusEvent.cs false :: BusEvent.spi AT45DB_MNTHRUBF1 x :: rest) ∧
    (∃ (r : List Nat × World σ) (x : Nat) (rest : List BusEvent),
      AT45_ReadPage d fuel w page offset size buf = some r ∧
      r.2.trace = w1.trace ++ BusEvent.cs false :: BusEvent.spi AT45DB_RDARRAYHF x :: rest) ∧
    (∃ (w7 : World σ) (x : Nat) (rest : List BusEvent),
      AT45_ErasePage d fuel w page = waitWhileBusy d fuel w7 ∧
      w7.trace = w1.trace ++ BusEvent.cs false :: BusEvent.spi AT45DB_PGERASE x :: rest ∧
      ∀ w2, AT45_ErasePage d fuel w page = some w2 → ∃ after, w2.trace = w7.trace ++ after) ∧
    (∀ w2, AT45_ErasePage d fuel w page = some w2 →
      ∃ (q : Nat) (polls : List (Nat × Nat × Nat)) (r0 s1 s2 x : Nat) (rest : List BusEvent),
        w2.trace = w.trace ++ (commandTransaction [AT45DB_RESUME] [q] [] ++
          (statusPolls polls ++ (statusTransaction r0 s1 s2 ++
            BusEvent.cs false :: BusEvent.spi AT45DB_PGERASE x :: rest))) ∧
        s1.testBit 7 = true ∧ ∀ p ∈ polls, p.2.1.testBit 7 = false) ∧
    (∀ w2, AT45_WritePage d fuel w page offset size buf = some w2 →
      ∃ (q : Nat) (polls : List (Nat × Nat × Nat)) (r0 s1 s2 x : Nat) (rest : List BusEvent),
        w2.trace = w.trace ++ (commandTransaction [AT45DB_RESUME] [q] [] ++
          (statusPolls polls ++ (statusTransaction r0 s1 s2 ++
            BusEvent.cs false :: BusEvent.spi AT45DB_MNTHRUBF1 x :: rest))) ∧
        s1.testBit 7 = true ∧ ∀ p ∈ polls, p.2.1.testBit 7 = false) ∧
    (∀ r, AT45_ReadPage d fuel w page offset size buf = some r →
      ∃ (q : Nat) (polls : List (Nat × Nat × Nat)) (r0 s1 s2 x : Nat) (rest : List BusEvent),
        r.2.trace = w.trace ++ (commandTransaction [AT45DB_RESUME] [q] [] ++
          (statusPolls polls ++ (statusTransaction r0 s1 s2 ++
            BusEvent.cs false :: BusEvent.spi AT45DB_RDARRAYHF x :: rest))) ∧
        s1.testBit 7 = true ∧ ∀ p ∈ polls, p.2.1.testBit 7 = false) := by
  refine ⟨?_, ?_, ?_, ?_, ?_, ?_, ?_⟩
  · obtain ⟨-, q, polls, r0, s1, s2, htr, hrdy, hall⟩ := AT45_Resume_spec d fuel w w1 hres
    exact ⟨q, polls, r0, s1, s2, htr, hrdy, hall⟩
  · obtain ⟨w2, q4, rs, hw, -, hq4, -, htr⟩ :=
      AT45_WritePage_run d fuel w w1 page offset size buf hres
    obtain ⟨q0, q1, q2, q3, rfl⟩ : ∃ q0 q1 q2 q3, q4 = [q0, q1, q2, q3] := by
      match q4, hq4 with
      | [q0, q1, q2, q3], _ => exact ⟨q0, q1, q2, q3, rfl⟩
    refine ⟨w2, q0, ?restw, hw, ?eqw⟩
    case eqw =>
      rw [htr]
      simp only [commandTransaction, addressBytes, List.zipWith_cons_cons, List.cons_append]
      exact rfl
  · obtain ⟨r, q5, data, hr, -, hq5, -, -, htr⟩ :=
      AT45_ReadPage_run d fuel w w1 page offset size buf hres
    obtain ⟨q0, q1, q2, q3, q4, rfl⟩ : ∃ q0 q1 q2 q3 q4, q5 = [q0, q1, q2, q3, q4] := by
      match q5, hq5 with
      | [q0, q1, q2, q3, q4], _ => exact ⟨q0, q1, q2, q3, q4, rfl⟩
    refine ⟨r, q0, ?restr, hr, ?eqr⟩
    case eqr =>
      rw [htr]
      simp only [commandTransaction, addressBytes, List.zipWith_cons_cons, List.cons_append]
      exact rfl
  · obtain ⟨w7, q4, hq4, herase, -, htr⟩ := AT45_ErasePage_after_resume d fuel w w1 page hres
    obtain ⟨q0, q1, q2, q3, rfl⟩ : ∃ q0 q1 q2 q3, q4 = [q0, q1, q2, q3] := by
      match q4, hq4 with
      | [q0, q1, q2, q3], _ => exact ⟨q0, q1, q2, q3, rfl⟩
    refine ⟨w7, q0, ?reste, herase, ?eqe, ?afe⟩
    case eqe =>
      rw [htr]
      simp only [commandTransaction, addressBytes, List.zipWith_cons_cons, List.cons_append]
      exact rfl
    case afe =>
      intro w2 hw2
      rw [herase] at hw2
      obtain ⟨-, polls, r0, s1, s2, hpoll, -, -⟩ := waitWhileBusy_spec d fuel w7 w2 hw2
      exact ⟨_, hpoll⟩
  · intro w2 hw
    obtain ⟨w1, q4, polls2, t0, t1, t2, hres, -, hq4, htr, -, -⟩ :=
      AT45_ErasePage_run d fuel w w2 page hw
    obtain ⟨q0, q1, q2, q3, rfl⟩ : ∃ q0 q1 q2 q3, q4 = [q0, q1, q2, q3] := by
      match q4, hq4 with
      | [q0, q1, q2, q3], _ => exact ⟨q0, q1, q2, q3, rfl⟩
    obtain ⟨q, polls, r0, s1, s2, hshape, hrdy, hall⟩ := resume_step_shape d fuel w w1 hres
      (commandTransaction
        (AT45DB_PGERASE :: addressBytes (linearAddress w.AT45 (page % 65536) 0))
        [q0, q1, q2, q3] [] ++ (statusPolls polls2 ++ statusTransaction t0 t1 t2))
    refine ⟨q, polls, r0, s1, s2, q0, ?rest1, ?eq1, hrdy, hall⟩
    case eq1 =>
      rw [htr, hshape]
      simp only [commandTransaction, addressBytes, List.zipWith_cons_cons, List.cons_append]
      exact rfl
  · intro w2 hw
    have hw0 := hw
    unfold AT45_WritePage at hw0
    simp only [Option.map_eq_some'] at hw0
    obtain ⟨w1, hres, -⟩ := hw0
    obtain ⟨v2, q4, rs, hv, -, hq4, -, htr⟩ :=
      AT45_WritePage_run d fuel w w1 page offset size buf hres
    rw [hw] at hv
    cases hv
    obtain ⟨q0, q1, q2, q3, rfl⟩ : ∃ q0 q1 q2 q3, q4 = [q0, q1, q2, q3] := by
      match q4, hq4 with
      | [q0, q1, q2, q3], _ => exact ⟨q0, q1, q2, q3, rfl⟩
    obtain ⟨q, polls, r0, s1, s2, hshape, hrdy, hall⟩ := resume_step_shape d fuel w w1 hres
      (commandTransaction
        (AT45DB_MNTHRUBF1 ::
          addressBytes (linearAddress w.AT45 (page % 65536) (offset % 65536)))
        [q0, q1, q2, q3]
        (List.zipWith BusEvent.spi
          (bufferBytes buf 0 (min (size % 65536) w.AT45.PageSize)) rs))
    refine ⟨q, polls, r0, s1, s2, q0, ?rest2, ?eq2, hrdy, hall⟩
    case eq2 =>
      rw [htr, hshape]
      simp only [commandTransaction, addressBytes, List.zipWith_cons_cons, List.cons_append]
      exact rfl
  · intro r hr
    have hr0 := hr
    unfold AT45_ReadPage at hr0
    simp only [Option.map_eq_some'] at hr0
    obtain ⟨w1, hres, -⟩ := hr0
    obtain ⟨v, q5, data, hv, -, hq5, -, -, htr⟩ :=
      AT45_ReadPage_run d fuel w w1 page offset size buf hres
    rw [hr] at hv
    cases hv
    obtain ⟨q0, q1, q2, q3, q4, rfl⟩ : ∃ q0 q1 q2 q3 q4, q5 = [q0, q1, q2, q3, q4] := by
      match q5, hq5 with
      | [q0, q1, q2, q3, q4], _ => exact ⟨q0, q1, q2, q3, q4, rfl⟩
    obtain ⟨q, polls, r0, s1, s2, hshape, hrdy, hall⟩ := resume_step_shape d fuel w w1 hres
      (commandTransaction
        (AT45DB_RDARRAYHF ::
          (addressBytes (linearAddress w.AT45 (page % 65536) (offset % 65536)) ++ [0]))
        [q0, q1, q2, q3, q4] (data.map BusEvent.recv))
    refine ⟨q, polls, r0, s1, s2, q0, ?rest3, ?eq3, hrdy, hall⟩
    case eq3 =>
      rw [htr, hshape]
      simp only [commandTransaction, addressBytes, List.zipWith_cons_cons, List.cons_append]
      exact rfl

/-- Witness for C18: on a chip that answers busy once and then ready in the
resume step, a write and a read return with their opcode right after the resume
step, and an erase runs to completion with the whole log in the stated shape. -/
theorem page_ops_resume_first_witness :
    (∃ (w2 : World (List Nat)) (x : Nat) (rest : List BusEvent),
      AT45_WritePage scripted 2
        (worldWith { FlashSize_MBit := 16, PageSize := 528, Pages := 4096, Shift := 10 } [0x00, 0x00, 0x00, 0x00, 0x00, 0x80, 0x00])
        3 5 4 [0xDE, 0xAD, 0xBE, 0xEF] = some w2 ∧
      w2.trace = ((AT45_Resume scripted 2
        (worldWith { FlashSize_MBit := 16, PageSize := 528, Pages := 4096, Shift := 10 } [0x00, 0x00, 0x00, 0x00, 0x00, 0x80, 0x00])).getD
          (startWorld [])).trace ++
        BusEvent.cs false :: BusEvent.spi AT45DB_MNTHRUBF1 x :: rest) ∧
    (∃ (r : List Nat × World (List Nat)) (x : Nat) (rest : List BusEvent),
      AT45_ReadPage scripted 2
        (worldWith { FlashSize_MBit := 16, PageSize := 528, Pages := 4096, Shift := 10 } [0x00, 0x00, 0x00, 0x00, 0x00, 0x80, 0x00])
        3 5 4 [] = some r ∧
      r.2.trace = ((AT45_Resume scripted 2
        (worldWith { FlashSize_MBit := 16, PageSize := 528, Pages := 4096, Shift := 10 } [0x00, 0x00, 0x00, 0x00, 0x00, 0x80, 0x00])).getD
          (startWorld [])).trace ++
        BusEvent.cs false :: BusEvent.spi AT45DB_RDARRAYHF x :: rest) ∧
    (∃ (q : Nat) (polls : List (Nat × Nat × Nat)) (r0 s1 s2 x : Nat) (rest : List BusEvent),
      ((AT45_ErasePage scripted 2
        (worldWith { FlashSize_MBit := 16, PageSize := 528, Pages := 4096, Shift := 10 } [0x00, 0x00, 0x00, 0x00, 0x00, 0x80, 0x00,
          0x00, 0x00, 0x00, 0x00, 0x00, 0x80, 0x00])
        3).getD (startWorld [])).trace =
        [] ++ (commandTransaction [AT45DB_RESUME] [q] [] ++
          (statusPolls polls ++ (statusTransaction r0 s1 s2 ++
            BusEvent.cs false :: BusEvent.spi AT45DB_PGERASE x :: rest))) ∧
      s1.testBit 7 = true ∧ ∀ p ∈ polls, p.2.1.testBit 7 = false) := by
  have hw := page_ops_resume_first scripted 2
    (worldWith { FlashSize_MBit := 16, PageSize := 528, Pages := 4096, Shift := 10 } [0x00, 0x00, 0x00, 0x00, 0x00, 0x80, 0x00])
    ((AT45_Resume scripted 2
      (worldWith { FlashSize_MBit := 16, PageSize := 528, Pages := 4096, Shift := 10 } [0x00, 0x00, 0x00, 0x00, 0x00, 0x80, 0x00])).getD (startWorld []))
    3 5 4 [0xDE, 0xAD, 0xBE, 0xEF] (by decide)
  have hr := page_ops_resume_first scripted 2
    (worldWith { FlashSize_MBit := 16, PageSize := 528, Pages := 4096, Shift := 10 } [0x00, 0x00, 0x00, 0x00, 0x00, 0x80, 0x00])
    ((AT45_Resume scripted 2
      (worldWith { FlashSize_MBit := 16, PageSize := 528, Pages := 4096, Shift := 10 } [0x00, 0x00, 0x00, 0x00, 0x00, 0x80, 0x00])).getD (startWorld []))
    3 5 4 [] (by decide)
  have he := page_ops_resume_first scripted 2
    (worldWith { FlashSize_MBit := 16, PageSize := 528, Pages := 4096, Shift := 10 } [0x00, 0x00, 0x00, 0x00, 0x00, 0x80, 0x00,
      0x00, 0x00, 0x00, 0x00, 0x00, 0x80, 0x00])
    ((AT45_Resume scripted 2
      (worldWith { FlashSize_MBit := 16, PageSize := 528, Pages := 4096, Shift := 10 } [0x00, 0x00, 0x00, 0x00, 0x00, 0x80, 0x00,
        0x00, 0x00, 0x00, 0x00, 0x00, 0x80, 0x00])).getD (startWorld []))
    3 0 0 [] (by decide)
  exact ⟨hw.2.1, hr.2.2.1, he.2.2.2.2.1
    ((AT45_ErasePage scripted 2
      (worldWith { FlashSize_MBit := 16, PageSize := 528, Pages := 4096, Shift := 10 } [0x00, 0x00, 0x00, 0x00, 0x00, 0x80, 0x00,
        0x00, 0x00, 0x00, 0x00, 0x00, 0x80, 0x00])
      3).getD (startWorld [])) (by decide)⟩

/-! ## Reduced and native page sizes -/

theorem AT45_Init_switch_pair (g h : AT45_t) (prd edi edin : Nat)
    (hc : 2 ≤ prd &&& 0x1F ∧ prd &&& 0x1F ≤ 8)
    (hset : edi &&& 1 = 1) (hclear : edin &&& 1 = 0) :
    (AT45_Init_switch g prd edi).PageSize = 2 ^ (AT45_Init_switch g prd edi).Shift ∧
    (AT45_Init_switch h prd edin).Pages = (AT45_Init_switch g prd edi).Pages ∧
    (AT45_Init_switch h prd edin).Shift = (AT45_Init_switch g prd edi).Shift + 1 ∧
    (AT45_Init_switch h prd edin).PageSize =
      (AT45_Init_switch g prd edi).PageSize + (AT45_Init_switch g prd edi).PageSize / 32 := by
  unfold AT45_Init_switch
  simp only [AT45DB_DEVID1_CAPMSK]
  generalize prd &&& 0x1F = c at *
  obtain ⟨h1, h2⟩ := hc
  interval_cases c <;> simp [hset, hclear]

/-- C19: for every supported capacity code (manufacturer 0x1F, family 0x20, code
0x02..0x08), the geometry `AT45_Init` stores when the extended-data low bit is
set has `PageSize = 2 ^ Shift`, and the geometry it stores when the bit is clear
has the same `Pages`, a `Shift` larger by one and a `PageSize` equal to the
reduced size plus one thirty-second of it. -/
theorem AT45_Init_reduced_and_native (d : Device σ) (w wn : World σ)
    (r0 mnf prd b3 b4 edi q0 c3 c4 edin : Nat)
    (hred : (AT45_Init d w).2.trace = w.trace ++ idTransaction r0 mnf prd b3 b4 edi)
    (hnat : (AT45_Init d wn).2.trace = wn.trace ++ idTransaction q0 mnf prd c3 c4 edin)
    (hmnf : mnf = 0x1F) (hfam : prd &&& 0xE0 = 0x20)
    (hcap : 0x02 ≤ prd &&& 0x1F ∧ prd &&& 0x1F ≤ 0x08)
    (hset : edi &&& 1 = 1) (hclear : edin &&& 1 = 0) :
    (AT45_Init d w).2.AT45.PageSize = 2 ^ (AT45_Init d w).2.AT45.Shift ∧
    (AT45_Init d wn).2.AT45.Pages = (AT45_Init d w).2.AT45.Pages ∧
    (AT45_Init d wn).2.AT45.Shift = (AT45_Init d w).2.AT45.Shift + 1 ∧
    (AT45_Init d wn).2.AT45.PageSize =
      (AT45_Init d w).2.AT45.PageSize + (AT45_Init d w).2.AT45.PageSize / 32 := by
  have hcond : mnf = AT45DB_MANUFACTURER ∧
      prd &&& AT45DB_DEVID1_FAMMSK = AT45DB_DEVID1_DFLASH := ⟨hmnf, hfam⟩
  have h1 := (AT45_Init_of_trace d w r0 mnf prd b3 b4 edi hred).2
  have h2 := (AT45_Init_of_trace d wn q0 mnf prd c3 c4 edin hnat).2
  rw [if_pos hcond] at h1 h2
  rw [h1, h2]
  exact AT45_Init_switch_pair w.AT45 wn.AT45 prd edi edin hcap hset hclear

/-- Witness for C19: the 64 Mbit chip, 1024-byte pages against 1056-byte pages. -/
theorem AT45_Init_reduced_and_native_witness :
    (AT45_Init scripted (startWorld [0xFF, 0x1F, 0x28, 0x00, 0x01, 0x01])).2.AT45.PageSize = 1024 ∧
    (AT45_Init scripted (startWorld [0xFF, 0x1F, 0x28, 0x00, 0x01, 0x00])).2.AT45.PageSize =
      1024 + 1024 / 32 := by
  have h := AT45_Init_reduced_and_native scripted
    (startWorld [0xFF, 0x1F, 0x28, 0x00, 0x01, 0x01])
    (startWorld [0xFF, 0x1F, 0x28, 0x00, 0x01, 0x00])
    0xFF 0x1F 0x28 0x00 0x01 0x01 0xFF 0x00 0x01 0x00
    (by decide) (by decide) (by decide) (by decide) (by decide) (by decide) (by decide)
  have hp : (AT45_Init scripted
      (startWorld [0xFF, 0x1F, 0x28, 0x00, 0x01, 0x01])).2.AT45.PageSize = 1024 :=
    h.1.trans (by decide)
  exact ⟨hp, by rw [h.2.2.2, hp]⟩

/-! ## The descriptor is written by `AT45_Init` only -/

theorem AT45_ReadStatus_AT45 (d : Device σ) (w : World σ) :
    (AT45_ReadStatus d w).2.AT45 = w.AT45 := rfl

theorem AT45_PowerDown_AT45 (d : Device σ) (w : World σ) :
    (AT45_PowerDown d w).AT45 = w.AT45 := rfl

theorem AT45_EraseChip_AT45 (d : Device σ) (fuel : Nat) (w w2 : World σ)
    (h : AT45_EraseChip d fuel w = some w2) : w2.AT45 = w.AT45 := by
  unfold AT45_EraseChip at h
  simp only [Option.bind_eq_some] at h
  obtain ⟨w1, hres, hw⟩ := h
  rw [(waitWhileBusy_spec d fuel _ w2 hw).1, HAL_GPIO_WritePin_AT45, AT45_Spi_AT45,
    AT45_Spi_AT45, AT45_Spi_AT45, AT45_Spi_AT45, HAL_GPIO_WritePin_AT45]
  exact (AT45_Resume_spec d fuel w w1 hres).1

theorem AT45_ErasePage_AT45 (d : Device σ) (fuel : Nat) (w w2 : World σ) (page : Nat)
    (h : AT45_ErasePage d fuel w page = some w2) : w2.AT45 = w.AT45 := by
  obtain ⟨w1, -, -, -, -, -, hres, hA, -⟩ := AT45_ErasePage_run d fuel w w2 page h
  exact hA.trans (AT45_Resume_spec d fuel w w1 hres).1

theorem AT45_WritePage_AT45 (d : Device σ) (fuel : Nat) (w w2 : World σ)
    (page offset size : Nat) (buf : List Nat)
    (h : AT45_WritePage d fuel w page offset size buf = some w2) : w2.AT45 = w.AT45 := by
  have h0 := h
  unfold AT45_WritePage at h0
  simp only [Option.map_eq_some'] at h0
  obtain ⟨w1, hres, -⟩ := h0
  obtain ⟨v2, -, -, hv, hA, -⟩ := AT45_WritePage_run d fuel w w1 page offset size buf hres
  rw [h] at hv
  cases hv
  exact hA.trans (AT45_Resume_spec d fuel w w1 hres).1

theorem AT45_ReadPage_AT45 (d : Device σ) (fuel : Nat) (w : World σ)
    (page offset size : Nat) (buf : List Nat) (r : List Nat × World σ)
    (h : AT45_ReadPage d fuel w page offset size buf = some r) : r.2.AT45 = w.AT45 := by
  have h0 := h
  unfold AT45_ReadPage at h0
  simp only [Option.map_eq_some'] at h0
  obtain ⟨w1, hres, -⟩ := h0
  obtain ⟨v, -, -, hv, hA, -⟩ := AT45_ReadPage_run d fuel w w1 page offset size buf hres
  rw [h] at hv
  cases hv
  exact hA.trans (AT45_Resume_spec d fuel w w1 hres).1

/-- C20: none of `AT45_ReadStatus`, `AT45_IsBusy`, `AT45_Resume`,
`AT45_PowerDown`, `AT45_EraseChip`, `AT45_ErasePage`, `AT45_WritePage`,
`AT45_ReadPage` and the four `block_device_*` functions changes the descriptor
`AT45`: whatever the arguments and the chip, the descriptor after the call equals
the descriptor before it (all four fields). -/
theorem descriptor_unchanged_outside_Init (d : Device σ) (fuel : Nat) (w : World σ)
    (page offset size : Nat) (buf : List Nat) :
    (AT45_ReadStatus d w).2.AT45 = w.AT45 ∧
    (AT45_IsBusy d w).2.AT45 = w.AT45 ∧
    (∀ w2, AT45_Resume d fuel w = some w2 → w2.AT45 = w.AT45) ∧
    (AT45_PowerDown d w).AT45 = w.AT45 ∧
    (∀ w2, AT45_EraseChip d fuel w = some w2 → w2.AT45 = w.AT45) ∧
    (∀ w2, AT45_ErasePage d fuel w page = some w2 → w2.AT45 = w.AT45) ∧
    (∀ w2, AT45_WritePage d fuel w page offset size buf = some w2 → w2.AT45 = w.AT45) ∧
    (∀ r, AT45_ReadPage d fuel w page offset size buf = some r → r.2.AT45 = w.AT45) ∧
    (∀ r, block_device_read d fuel w page offset buf size = some r → r.2.2.AT45 = w.AT45) ∧
    (∀ r, block_device_prog d fuel w page offset buf size = some r → r.2.AT45 = w.AT45) ∧
    (∀ r, block_device_erase d fuel w page = some r → r.2.AT45 = w.AT45) ∧
    (block_device_sync w).2.AT45 = w.AT45 := by
  refine ⟨rfl, AT45_IsBusy_AT45 d w, ?_, rfl, ?_, ?_, ?_, ?_, ?_, ?_, ?_, rfl⟩
  · intro w2 h
    exact (AT45_Resume_spec d fuel w w2 h).1
  · intro w2 h
    exact AT45_EraseChip_AT45 d fuel w w2 h
  · intro w2 h
    exact AT45_ErasePage_AT45 d fuel w w2 page h
  · intro w2 h
    exact AT45_WritePage_AT45 d fuel w w2 page offset size buf h
  · intro r h
    exact AT45_ReadPage_AT45 d fuel w page offset size buf r h
  · intro r h
    unfold block_device_read at h
    simp only [Option.map_eq_some'] at h
    obtain ⟨v, hv, rfl⟩ := h
    exact AT45_ReadPage_AT45 d fuel w _ _ _ buf v hv
  · intro r h
    unfold block_device_prog at h
    simp only [Option.map_eq_some'] at h
    obtain ⟨v, hv, rfl⟩ := h
    exact AT45_WritePage_AT45 d fuel w v _ _ _ buf hv
  · intro r h
    unfold block_device_erase at h
    simp only [Option.map_eq_some'] at h
    obtain ⟨v, hv, rfl⟩ := h
    exact AT45_ErasePage_AT45 d fuel w v _ hv


/-! ## The driver in front of the reference chip -/

theorem ref_IsBusy (shift latency : Nat) (w : World RefChip)
    (hph : w.chip.phase = Phase.idle) :
    (AT45_IsBusy (refChip shift latency) w).1 = decide (w.chip.busy ≠ 0) ∧
    (AT45_IsBusy (refChip shift latency) w).2.chip =
      { mem := w.chip.mem, phase := Phase.idle, busy := w.chip.busy - 1 } ∧
    (AT45_IsBusy (refChip shift latency) w).2.AT45 = w.AT45 := by
  obtain ⟨⟨m, ph, b⟩, g, tr, tk⟩ := w
  simp only at hph
  subst hph
  cases b with
  | zero =>
    refine ⟨?_, rfl, rfl⟩
    simp [AT45_IsBusy, AT45_ReadStatus, AT45_Spi, HAL_GPIO_WritePin, refChip, AT45DB_RDSR,
      AT45DB_SR_RDY]
  | succ n =>
    refine ⟨?_, rfl, rfl⟩
    simp [AT45_IsBusy, AT45_ReadStatus, AT45_Spi, HAL_GPIO_WritePin, refChip, AT45DB_RDSR,
      AT45DB_SR_RDY]

theorem ref_waitWhileBusy (shift latency : Nat) (fuel : Nat) (w : World RefChip)
    (hph : w.chip.phase = Phase.idle) (hb : w.chip.busy < fuel) :
    ∃ w2, waitWhileBusy (refChip shift latency) fuel w = some w2 ∧
      w2.chip = { mem := w.chip.mem, phase := Phase.idle, busy := 0 } ∧
      w2.AT45 = w.AT45 := by
  induction fuel generalizing w with
  | zero => omega
  | succ fuel ih =>
    obtain ⟨h1, h2, h3⟩ := ref_IsBusy shift latency w hph
    unfold waitWhileBusy
    simp only [h1]
    by_cases hz : w.chip.busy = 0
    · refine ⟨_, by simp [hz], ?_, h3⟩
      rw [h2, hz]
    · have hph2 : (AT45_IsBusy (refChip shift latency) w).2.chip.phase = Phase.idle := by
        rw [h2]
      have hb2 : (AT45_IsBusy (refChip shift latency) w).2.chip.busy < fuel := by
        rw [h2]; show w.chip.busy - 1 < fuel; omega
      obtain ⟨w2, hw2, hc2, ha2⟩ := ih _ hph2 hb2
      refine ⟨w2, by simp [hz, hw2], ?_, ha2.trans h3⟩
      rw [hc2, h2]

theorem ref_Resume (shift latency : Nat) (fuel : Nat) (w : World RefChip)
    (hph : w.chip.phase = Phase.idle) (hb : w.chip.busy < fuel) :
    ∃ w1, AT45_Resume (refChip shift latency) fuel w = some w1 ∧
      w1.chip = { mem := w.chip.mem, phase := Phase.idle, busy := 0 } ∧
      w1.AT45 = w.AT45 := by
  unfold AT45_Resume
  have hchip : (HAL_GPIO_WritePin (refChip shift latency)
      (AT45_Spi (refChip shift latency)
        (HAL_GPIO_WritePin (refChip shift latency) w false) AT45DB_RESUME).2 true).chip =
      { mem := w.chip.mem, phase := Phase.idle, busy := w.chip.busy } := by
    obtain ⟨⟨m, ph, b⟩, g, tr, tk⟩ := w
    simp only at hph
    subst hph
    cases b with
    | zero => rfl
    | succ n => rfl
  obtain ⟨w1, hw1, hc1, ha1⟩ := ref_waitWhileBusy shift latency fuel _
    (by rw [hchip]) (by rw [hchip]; exact hb)
  refine ⟨w1, hw1, ?_, ?_⟩
  · rw [hc1, hchip]
  · rw [ha1]; rfl

/-- The three address bytes the driver sends put the low 24 bits of the address
back together. -/
theorem address_reassembled (a : Nat) :
    (a >>> 16) % 256 % 256 * 65536 + (a >>> 8) % 256 % 256 * 256 + a % 256 % 256 =
      a % 2 ^ 24 := by
  simp only [Nat.shiftRight_eq_div_pow, Nat.mod_mod]
  omega

/-- Chip state after chip-select low, a data opcode and three address bytes,
starting from an idle, ready chip. -/
theorem ref_header (shift latency : Nat) (w : World RefChip) (mem : Nat → Nat) (a : Nat)
    (hc : w.chip = { mem := mem, phase := Phase.idle, busy := 0 }) :
    (AT45_Spi (refChip shift latency) (AT45_Spi (refChip shift latency)
      (AT45_Spi (refChip shift latency) (AT45_Spi (refChip shift latency)
        (HAL_GPIO_WritePin (refChip shift latency) w false) AT45DB_MNTHRUBF1).2
        ((a >>> 16) % 256)).2 ((a >>> 8) % 256)).2 (a % 256)).2.chip =
      { mem := mem, phase := Phase.programming (a % 2 ^ 24), busy := 0 } ∧
    (AT45_Spi (refChip shift latency) (AT45_Spi (refChip shift latency)
      (AT45_Spi (refChip shift latency) (AT45_Spi (refChip shift latency)
        (HAL_GPIO_WritePin (refChip shift latency) w false) AT45DB_PGERASE).2
        ((a >>> 16) % 256)).2 ((a >>> 8) % 256)).2 (a % 256)).2.chip =
      { mem := mem, phase := Phase.erasing (a % 2 ^ 24), busy := 0 } ∧
    (AT45_Spi (refChip shift latency) (AT45_Spi (refChip shift latency)
      (AT45_Spi (refChip shift latency) (AT45_Spi (refChip shift latency)
        (AT45_Spi (refChip shift latency)
        (HAL_GPIO_WritePin (refChip shift latency) w false) AT45DB_RDARRAYHF).2
        ((a >>> 16) % 256)).2 ((a >>> 8) % 256)).2 (a % 256)).2 0).2.chip =
      { mem := mem, phase := Phase.reading (a % 2 ^ 24), busy := 0 } := by
  obtain ⟨c, g, tr, tk⟩ := w
  simp only at hc
  subst hc
  rw [← address_reassembled a]
  exact ⟨rfl, rfl, rfl⟩

theorem ref_Transmit (shift latency : Nat) (buf : List Nat) (n i a : Nat) (w : World RefChip)
    (hph : w.chip.phase = Phase.programming a) :
    (HAL_SPI_Transmit_from (refChip shift latency) buf i n w).chip =
      { mem := storeBytes w.chip.mem a (bufferBytes buf i n),
        phase := Phase.programming (a + n), busy := w.chip.busy } ∧
    (HAL_SPI_Transmit_from (refChip shift latency) buf i n w).AT45 = w.AT45 := by
  induction n generalizing i a w with
  | zero =>
    obtain ⟨⟨m, ph, b⟩, g, tr, tk⟩ := w
    simp only at hph
    subst hph
    exact ⟨rfl, rfl⟩
  | succ n ih =>
    obtain ⟨⟨m, ph, b⟩, g, tr, tk⟩ := w
    simp only at hph
    subst hph
    unfold HAL_SPI_Transmit_from
    obtain ⟨h1, h2⟩ := ih (i + 1) (a + 1)
      { chip := { mem := fun x => if x = a then buf.getD i 0 % 256 else m x,
                  phase := Phase.programming (a + 1), busy := b },
        AT45 := g,
        trace := tr ++ [BusEvent.spi (buf.getD i 0 % 256) (0 % 256)],
        tick := tk } rfl
    refine ⟨?_, ?_⟩
    · refine Eq.trans h1 ?_
      simp only [bufferBytes, storeBytes]
      rw [Nat.add_assoc, Nat.add_comm 1 n]
    · exact h2

theorem ref_Receive (shift latency : Nat) (n a : Nat) (w : World RefChip)
    (hph : w.chip.phase = Phase.reading a) :
    (HAL_SPI_Receive (refChip shift latency) n w).1 = readBytes w.chip.mem a n ∧
    (HAL_SPI_Receive (refChip shift latency) n w).2.chip =
      { mem := w.chip.mem, phase := Phase.reading (a + n), busy := w.chip.busy } ∧
    (HAL_SPI_Receive (refChip shift latency) n w).2.AT45 = w.AT45 := by
  induction n generalizing a w with
  | zero =>
    obtain ⟨⟨m, ph, b⟩, g, tr, tk⟩ := w
    simp only at hph
    subst hph
    exact ⟨rfl, rfl, rfl⟩
  | succ n ih =>
    obtain ⟨⟨m, ph, b⟩, g, tr, tk⟩ := w
    simp only at hph
    subst hph
    unfold HAL_SPI_Receive
    obtain ⟨h1, h2, h3⟩ := ih (a + 1)
      { chip := { mem := m, phase := Phase.reading (a + 1), busy := b },
        AT45 := g, trace := tr ++ [BusEvent.recv (m a % 256)], tick := tk } rfl
    refine ⟨?_, ?_, ?_⟩
    · show (m a % 256) :: _ = _
      rw [readBytes]
      exact congrArg _ h1
    · refine Eq.trans h2 ?_
      rw [Nat.add_assoc, Nat.add_comm 1 n]
    · exact h3


theorem storeBytes_outside (bs : List Nat) (mem : Nat → Nat) (a x : Nat)
    (hx : x < a ∨ a + bs.length ≤ x) : storeBytes mem a bs x = mem x := by
  induction bs generalizing mem a with
  | nil => rfl
  | cons b bs ih =>
    rw [storeBytes, ih _ (a + 1) (by simp only [List.length_cons] at hx; omega)]
    have hne : x ≠ a := by simp only [List.length_cons] at hx; omega
    simp [hne]

theorem readBytes_length (mem : Nat → Nat) (a n : Nat) : (readBytes mem a n).length = n := by
  induction n generalizing a with
  | zero => rfl
  | succ n ih => simp [readBytes, ih]

theorem readBytes_congr (m1 m2 : Nat → Nat) (a n : Nat)
    (h : ∀ i, i < n → m1 (a + i) = m2 (a + i)) : readBytes m1 a n = readBytes m2 a n := by
  induction n generalizing a with
  | zero => rfl
  | succ n ih =>
    have h0 : m1 a = m2 a := h 0 (by omega)
    rw [readBytes, readBytes, h0, ih (a + 1)]
    intro i hi
    have := h (i + 1) (by omega)
    rwa [Nat.add_assoc, Nat.add_comm 1 i]

/-- Reading back the range that was just stored gives the stored bytes. -/
theorem readBytes_storeBytes (bs : List Nat) (mem : Nat → Nat) (a : Nat)
    (hb : ∀ b ∈ bs, b < 256) : readBytes (storeBytes mem a bs) a bs.length = bs := by
  induction bs generalizing mem a with
  | nil => rfl
  | cons b bs ih =>
    rw [List.length_cons, readBytes, storeBytes,
      storeBytes_outside bs _ (a + 1) a (Or.inl (by omega)),
      ih _ (a + 1) (fun c hc => hb c (List.mem_cons_of_mem _ hc))]
    simp [Nat.mod_eq_of_lt (hb b (List.mem_cons_self _ _))]

/-- Reading a range that does not meet the stored range gives what was there. -/
theorem readBytes_storeBytes_disjoint (bs : List Nat) (mem : Nat → Nat) (a b n : Nat)
    (h : b + n ≤ a ∨ a + bs.length ≤ b) :
    readBytes (storeBytes mem a bs) b n = readBytes mem b n := by
  apply readBytes_congr
  intro i hi
  exact storeBytes_outside bs mem a (b + i) (by omega)

theorem ref_WritePage (shift latency fuel : Nat) (w : World RefChip)
    (page offset size : Nat) (buf : List Nat)
    (hph : w.chip.phase = Phase.idle) (hb : w.chip.busy < fuel) :
    ∃ w2, AT45_WritePage (refChip shift latency) fuel w page offset size buf = some w2 ∧
      w2.chip =
        { mem := storeBytes w.chip.mem
            (linearAddress w.AT45 (page % 65536) (offset % 65536) % 2 ^ 24)
            (bufferBytes buf 0 (min (size % 65536) w.AT45.PageSize)),
          phase := Phase.idle, busy := latency } ∧
      w2.AT45 = w.AT45 := by
  obtain ⟨w1, hres, hc1, ha1⟩ := ref_Resume shift latency fuel w hph hb
  unfold AT45_WritePage
  simp only [hres, Option.map_some', linearAddress_eq, clamp_eq_min]
  generalize linearAddress w.AT45 (page % 65536) (offset % 65536) = a
  generalize min (size % 65536) w.AT45.PageSize = n
  have hhead := (ref_header shift latency w1 w.chip.mem a hc1).1
  have hA6 := (command_header (refChip shift latency) w1 AT45DB_MNTHRUBF1 a (by decide)).1
  revert hhead hA6
  generalize (AT45_Spi (refChip shift latency) (AT45_Spi (refChip shift latency)
    (AT45_Spi (refChip shift latency) (AT45_Spi (refChip shift latency)
      (HAL_GPIO_WritePin (refChip shift latency) w1 false) AT45DB_MNTHRUBF1).2
      ((a >>> 16) % 256)).2 ((a >>> 8) % 256)).2 (a % 256)).2 = w6
  intro hhead hA6
  obtain ⟨ht, hta⟩ := ref_Transmit shift latency buf n 0 (a % 2 ^ 24) w6 (by rw [hhead])
  refine ⟨_, rfl, ?_, ?_⟩
  · rw [HAL_GPIO_WritePin_chip]
    unfold HAL_SPI_Transmit
    rw [ht, hhead]
    rfl
  · rw [HAL_GPIO_WritePin_AT45]
    unfold HAL_SPI_Transmit
    rw [hta, hA6, ha1]

theorem ref_ReadPage (shift latency fuel : Nat) (w : World RefChip)
    (page offset size : Nat) (buf : List Nat)
    (hph : w.chip.phase = Phase.idle) (hb : w.chip.busy < fuel) :
    ∃ r, AT45_ReadPage (refChip shift latency) fuel w page offset size buf = some r ∧
      r.1 = readBytes w.chip.mem
          (linearAddress w.AT45 (page % 65536) (offset % 65536) % 2 ^ 24)
          (min (size % 65536) w.AT45.PageSize) ++
        buf.drop (min (size % 65536) w.AT45.PageSize) ∧
      r.2.chip = { mem := w.chip.mem, phase := Phase.idle, busy := 0 } ∧
      r.2.AT45 = w.AT45 := by
  obtain ⟨w1, hres, hc1, ha1⟩ := ref_Resume shift latency fuel w hph hb
  unfold AT45_ReadPage
  simp only [hres, Option.map_some', linearAddress_eq, clamp_eq_min]
  generalize linearAddress w.AT45 (page % 65536) (offset % 65536) = a
  generalize min (size % 65536) w.AT45.PageSize = n
  have hhead := (ref_header shift latency w1 w.chip.mem a hc1).2.2
  have hA6 := (command_header (refChip shift latency) w1 AT45DB_RDARRAYHF a (by decide)).1
  have hA7 := AT45_Spi_AT45 (refChip shift latency) (AT45_Spi (refChip shift latency)
    (AT45_Spi (refChip shift latency) (AT45_Spi (refChip shift latency)
      (AT45_Spi (refChip shift latency)
      (HAL_GPIO_WritePin (refChip shift latency) w1 false) AT45DB_RDARRAYHF).2
      ((a >>> 16) % 256)).2 ((a >>> 8) % 256)).2 (a % 256)).2 0
  rw [hA6] at hA7
  revert hhead hA7
  generalize (AT45_Spi (refChip shift latency) (AT45_Spi (refChip shift latency)
    (AT45_Spi (refChip shift latency) (AT45_Spi (refChip shift latency)
      (AT45_Spi (refChip shift latency)
      (HAL_GPIO_WritePin (refChip shift latency) w1 false) AT45DB_RDARRAYHF).2
      ((a >>> 16) % 256)).2 ((a >>> 8) % 256)).2 (a % 256)).2 0).2 = w7
  intro hhead hA7
  obtain ⟨hr1, hr2, hr3⟩ := ref_Receive shift latency n (a % 2 ^ 24) w7 (by rw [hhead])
  refine ⟨_, rfl, ?_, ?_, ?_⟩
  · show (HAL_SPI_Receive (refChip shift latency) n w7).1 ++ _ = _
    rw [hr1, hhead]
  · show (HAL_GPIO_WritePin (refChip shift latency)
      (HAL_SPI_Receive (refChip shift latency) n w7).2 true).chip = _
    rw [HAL_GPIO_WritePin_chip, hr2, hhead]
    rfl
  · show (HAL_GPIO_WritePin (refChip shift latency)
      (HAL_SPI_Receive (refChip shift latency) n w7).2 true).AT45 = _
    rw [HAL_GPIO_WritePin_AT45, hr3, hA7, ha1]


/-- Size facts shared by every row of the switch of `AT45_Init`. -/
theorem AT45_Init_switch_bounds (g0 : AT45_t) (prd edi : Nat)
    (hc : 2 ≤ prd &&& 0x1F ∧ prd &&& 0x1F ≤ 8) :
    (AT45_Init_switch g0 prd edi).Pages * 2 ^ (AT45_Init_switch g0 prd edi).Shift ≤ 2 ^ 24 ∧
    (AT45_Init_switch g0 prd edi).PageSize ≤ 2 ^ (AT45_Init_switch g0 prd edi).Shift ∧
    (AT45_Init_switch g0 prd edi).PageSize < 65536 ∧
    (AT45_Init_switch g0 prd edi).Pages < 65536 := by
  have he : edi &&& 1 = 0 ∨ edi &&& 1 = 1 := by
    have := Nat.and_le_right (n := edi) (m := 1); omega
  unfold AT45_Init_switch
  simp only [AT45DB_DEVID1_CAPMSK]
  generalize prd &&& 0x1F = c at *
  obtain ⟨h1, h2⟩ := hc
  interval_cases c <;> rcases he with he | he <;> simp [he]

theorem ref_block_read (shift latency fuel : Nat) (w : World RefChip)
    (page o n : Nat) (buf : List Nat)
    (hph : w.chip.phase = Phase.idle) (hb : w.chip.busy < fuel)
    (hpage : page < 65536) (ho : o < 65536) (hn : n ≤ w.AT45.PageSize) (hn2 : n < 65536) :
    ∃ w2, block_device_read (refChip shift latency) fuel w page o buf n =
        some (0, readBytes w.chip.mem (linearAddress w.AT45 page o % 2 ^ 24) n ++ buf.drop n,
          w2) ∧
      w2.chip = { mem := w.chip.mem, phase := Phase.idle, busy := 0 } ∧ w2.AT45 = w.AT45 := by
  obtain ⟨r, hr, h1, h2, h3⟩ := ref_ReadPage shift latency fuel w
    (page % 2 ^ 32 % 65536) (o % 2 ^ 32 % 65536) (n % 2 ^ 32 % 65536) buf hph hb
  rw [mod_mod_small page hpage, mod_mod_small o ho, mod_mod_small n hn2,
    Nat.mod_eq_of_lt hpage, Nat.mod_eq_of_lt ho, Nat.mod_eq_of_lt hn2,
    Nat.min_eq_left hn] at h1
  rw [mod_mod_small page hpage, mod_mod_small o ho, mod_mod_small n hn2] at hr
  refine ⟨r.2, ?_, h2, h3⟩
  unfold block_device_read
  rw [mod_mod_small page hpage, mod_mod_small o ho, mod_mod_small n hn2, hr]
  simp only [Option.map_some', h1]

theorem ref_block_prog (shift latency fuel : Nat) (w : World RefChip)
    (page o : Nat) (data : List Nat)
    (hph : w.chip.phase = Phase.idle) (hb : w.chip.busy < fuel)
    (hpage : page < 65536) (ho : o < 65536) (hn : data.length ≤ w.AT45.PageSize)
    (hn2 : data.length < 65536) (hbytes : ∀ b ∈ data, b < 256) :
    ∃ w2, block_device_prog (refChip shift latency) fuel w page o data data.length =
        some (0, w2) ∧
      w2.chip = { mem := storeBytes w.chip.mem (linearAddress w.AT45 page o % 2 ^ 24) data,
                  phase := Phase.idle, busy := latency } ∧
      w2.AT45 = w.AT45 := by
  obtain ⟨w2, hw, h1, h2⟩ := ref_WritePage shift latency fuel w
    (page % 2 ^ 32 % 65536) (o % 2 ^ 32 % 65536) (data.length % 2 ^ 32 % 65536) data hph hb
  rw [mod_mod_small page hpage, mod_mod_small o ho, mod_mod_small _ hn2,
    Nat.mod_eq_of_lt hpage, Nat.mod_eq_of_lt ho, Nat.mod_eq_of_lt hn2,
    Nat.min_eq_left hn, bufferBytes_eq_take data _ (Nat.le_refl _) hbytes,
    List.take_length] at h1
  rw [mod_mod_small page hpage, mod_mod_small o ho, mod_mod_small _ hn2] at hw
  refine ⟨w2, ?_, h1, h2⟩
  unfold block_device_prog
  rw [mod_mod_small page hpage, mod_mod_small o ho, mod_mod_small _ hn2, hw]
  rfl

/-- Inside a page of an identified geometry the linear address needs no more than
24 bits. -/
theorem linearAddress_in_page (g0 : AT45_t) (prd edi page o : Nat)
    (hc : 2 ≤ prd &&& 0x1F ∧ prd &&& 0x1F ≤ 8)
    (hpage : page < (AT45_Init_switch g0 prd edi).Pages)
    (ho : o < (AT45_Init_switch g0 prd edi).PageSize) :
    linearAddress (AT45_Init_switch g0 prd edi) page o % 2 ^ 24 =
      page * 2 ^ (AT45_Init_switch g0 prd edi).Shift + o := by
  obtain ⟨h1, h2, -, -⟩ := AT45_Init_switch_bounds g0 prd edi hc
  have h3 : (page + 1) * 2 ^ (AT45_Init_switch g0 prd edi).Shift ≤
      (AT45_Init_switch g0 prd edi).Pages * 2 ^ (AT45_Init_switch g0 prd edi).Shift :=
    Nat.mul_le_mul_right _ hpage
  rw [Nat.add_mul, Nat.one_mul] at h3
  unfold linearAddress
  have hlt : page * 2 ^ (AT45_Init_switch g0 prd edi).Shift + o < 2 ^ 24 := by omega
  rw [Nat.mod_eq_of_lt (by omega : _ < 2 ^ 32), Nat.mod_eq_of_lt hlt]


/-- C14: against the reference chip, for every geometry identified by
`AT45_Init` (a row of its switch), every `page < Pages` and every `offset` and
byte list `data` with `offset + data.length ≤ PageSize`, and a poll bound above
the chip's busy time: `block_device_prog` followed by `block_device_read` of the
same page and range both return 0 and the read returns exactly `data`; the bytes
of the page outside `[offset, offset + length)` are still what they were before
the write, in the chip and as seen by reading any such range before and after. -/
theorem block_device_prog_read_roundtrip (shift latency fuel : Nat) (w : World RefChip)
    (g0 : AT45_t) (prd edi page offset : Nat) (data buffer : List Nat)
    (hgeo : w.AT45 = AT45_Init_switch g0 prd edi)
    (hcap : 0x02 ≤ prd &&& 0x1F ∧ prd &&& 0x1F ≤ 0x08)
    (hph : w.chip.phase = Phase.idle) (hbusy : w.chip.busy < fuel) (hlat : latency < fuel)
    (hpage : page < w.AT45.Pages) (hlen : offset + data.length ≤ w.AT45.PageSize)
    (hbytes : ∀ b ∈ data, b < 256) :
    ∃ w1 w2,
      block_device_prog (refChip shift latency) fuel w page offset data data.length =
        some (0, w1) ∧
      block_device_read (refChip shift latency) fuel w1 page offset buffer data.length =
        some (0, data ++ buffer.drop data.length, w2) ∧
      (∀ o, o < w.AT45.PageSize → (o < offset ∨ offset + data.length ≤ o) →
        w1.chip.mem (page * 2 ^ w.AT45.Shift + o) = w.chip.mem (page * 2 ^ w.AT45.Shift + o)) ∧
      (∀ o n buf2, o + n ≤ w.AT45.PageSize → (o + n ≤ offset ∨ offset + data.length ≤ o) →
        ∃ bytes v1 v2, bytes.length = n ∧
          block_device_read (refChip shift latency) fuel w page o buf2 n =
            some (0, bytes ++ buf2.drop n, v1) ∧
          block_device_read (refChip shift latency) fuel w1 page o buf2 n =
            some (0, bytes ++ buf2.drop n, v2)) := by
  have hb := AT45_Init_switch_bounds g0 prd edi hcap
  rw [← hgeo] at hb
  obtain ⟨-, -, hps, hpg⟩ := hb
  have hin : ∀ o, o < w.AT45.PageSize →
      linearAddress w.AT45 page o % 2 ^ 24 = page * 2 ^ w.AT45.Shift + o := by
    intro o ho
    have := linearAddress_in_page g0 prd edi page o hcap (by rw [← hgeo]; exact hpage)
      (by rw [← hgeo]; exact ho)
    rw [← hgeo] at this
    exact this
  obtain ⟨w1, hprog, hc1, ha1⟩ := ref_block_prog shift latency fuel w page offset data
    hph hbusy (by omega) (by omega) (by omega) (by omega) hbytes
  have hph1 : w1.chip.phase = Phase.idle := by rw [hc1]
  have hbusy1 : w1.chip.busy < fuel := by rw [hc1]; exact hlat
  have hmem1 : w1.chip.mem =
      storeBytes w.chip.mem (linearAddress w.AT45 page offset % 2 ^ 24) data := by rw [hc1]
  obtain ⟨w2, hread, -, -⟩ := ref_block_read shift latency fuel w1 page offset data.length
    buffer hph1 hbusy1 (by omega) (by omega) (by rw [ha1]; omega) (by omega)
  rw [ha1, hmem1, readBytes_storeBytes data _ _ hbytes] at hread
  have hA : 0 < data.length →
      linearAddress w.AT45 page offset % 2 ^ 24 = page * 2 ^ w.AT45.Shift + offset :=
    fun hpos => hin offset (by omega)
  refine ⟨w1, w2, hprog, hread, ?_, ?_⟩
  · intro o ho hout
    rw [hmem1]
    apply storeBytes_outside
    by_cases hpos : 0 < data.length
    · rw [hA hpos]; omega
    · omega
  · intro o n buf2 hon hout
    obtain ⟨v1, hr0, -, -⟩ := ref_block_read shift latency fuel w page o n buf2
      hph hbusy (by omega) (by omega) (by omega) (by omega)
    obtain ⟨v2, hr1, -, -⟩ := ref_block_read shift latency fuel w1 page o n buf2
      hph1 hbusy1 (by omega) (by omega) (by rw [ha1]; omega) (by omega)
    refine ⟨_, v1, v2, readBytes_length _ _ n, hr0, ?_⟩
    rw [hr1, ha1, hmem1]
    have hsame : readBytes
        (storeBytes w.chip.mem (linearAddress w.AT45 page offset % 2 ^ 24) data)
        (linearAddress w.AT45 page o % 2 ^ 24) n =
        readBytes w.chip.mem (linearAddress w.AT45 page o % 2 ^ 24) n := by
      apply readBytes_congr
      intro i hi
      apply storeBytes_outside
      rw [hin o (by omega)]
      by_cases hpos : 0 < data.length
      · rw [hA hpos]; omega
      · omega
    rw [hsame]

/-- Witness for C14: on the 16 Mbit native geometry and a chip that stays busy
for two status reads, `block_device_erase(3)`, then programming DE AD BE EF at
page 3, offset 0, then reading 4 bytes there gives DE AD BE EF. -/
theorem block_device_prog_read_roundtrip_witness :
    ∃ w1 w2,
      block_device_prog (refChip 10 2) 3
        ((block_device_erase (refChip 10 2) 3
          (refWorld { FlashSize_MBit := 16, PageSize := 528, Pages := 4096, Shift := 10 }
            (fun _ => 0)) 3).getD (0, refWorld AT45_zero (fun _ => 0))).2
        3 0 [0xDE, 0xAD, 0xBE, 0xEF] 4 = some (0, w1) ∧
      block_device_read (refChip 10 2) 3 w1 3 0 [0, 0, 0, 0] 4 =
        some (0, [0xDE, 0xAD, 0xBE, 0xEF], w2) := by
  obtain ⟨w1, w2, h1, h2, -, -⟩ := block_device_prog_read_roundtrip 10 2 3
    ((block_device_erase (refChip 10 2) 3
      (refWorld { FlashSize_MBit := 16, PageSize := 528, Pages := 4096, Shift := 10 }
        (fun _ => 0)) 3).getD (0, refWorld AT45_zero (fun _ => 0))).2
    AT45_zero 0x26 0x00 3 0 [0xDE, 0xAD, 0xBE, 0xEF] [0, 0, 0, 0]
    (by decide) (by decide) (by decide) (by decide) (by decide) (by decide) (by decide)
    (by decide)
  exact ⟨w1, w2, h1, h2⟩

/-! ## Returning from a program call -/

/-- C11: on a reference chip that stays busy for two status reads after a
program command, `block_device_prog` returns 0 while the chip is still busy:
`AT45_IsBusy` called right after it returns true, the last bus event of the call
is the release of chip-select after the data phase, and no status read (0xD7) was
sent after opcode 0x82. -/
theorem program_returns_while_busy :
    (block_device_prog (refChip 10 2) 3 (refWorld { FlashSize_MBit := 16, PageSize := 528, Pages := 4096, Shift := 10 } (fun _ => 0xFF))
        3 0 [0xDE, 0xAD, 0xBE, 0xEF] 4).map
      (fun r => (r.1, (AT45_IsBusy (refChip 10 2) r.2).1, sentBytes r.2.trace,
        r.2.trace.getLast?)) =
      some (0, true, [0xAB, 0xD7, 0x00, 0x00, 0x82, 0x00, 0x0C, 0x00, 0xDE, 0xAD, 0xBE, 0xEF],
        some (BusEvent.cs true)) := by
  decide

/-- Witness for C20: a write leaves the 16 Mbit descriptor in place. -/
theorem descriptor_unchanged_outside_Init_witness :
    ((AT45_WritePage scripted 1 (worldWith { FlashSize_MBit := 16, PageSize := 528, Pages := 4096, Shift := 10 } [0x00, 0x00, 0x80, 0x00])
      3 5 4 [0xDE, 0xAD, 0xBE, 0xEF]).getD (startWorld [])).AT45 = { FlashSize_MBit := 16, PageSize := 528, Pages := 4096, Shift := 10 } :=
  (descriptor_unchanged_outside_Init scripted 1 (worldWith { FlashSize_MBit := 16, PageSize := 528, Pages := 4096, Shift := 10 } [0x00, 0x00, 0x80, 0x00])
    3 5 4 [0xDE, 0xAD, 0xBE, 0xEF]).2.2.2.2.2.2.1 _ (by decide)

/-! ## Addresses fit three bytes; table rows match their capacity -/

theorem addressBytes_injective (a b : Nat) (ha : a < 2 ^ 24) (hb : b < 2 ^ 24)
    (h : addressBytes a = addressBytes b) : a = b := by
  simp only [addressBytes, List.cons.injEq, and_true] at h
  obtain ⟨h2, h1, h0⟩ := h
  norm_num at ha hb h2 h1 h0
  omega

theorem page_offset_unique (s p1 o1 p2 o2 : Nat) (h1 : o1 < s) (h2 : o2 < s)
    (h : p1 * s + o1 = p2 * s + o2) : p1 = p2 ∧ o1 = o2 := by
  have hs : 0 < s := by omega
  have hd1 : (p1 * s + o1) / s = p1 := by
    rw [Nat.add_comm, Nat.add_mul_div_right _ _ hs, Nat.div_eq_of_lt h1, Nat.zero_add]
  have hd2 : (p2 * s + o2) / s = p2 := by
    rw [Nat.add_comm, Nat.add_mul_div_right _ _ hs, Nat.div_eq_of_lt h2, Nat.zero_add]
  have hp : p1 = p2 := by rw [← hd1, ← hd2, h]
  subst hp
  exact ⟨rfl, Nat.add_left_cancel h⟩

theorem in_page_address_lt (g0 : AT45_t) (prd edi page o : Nat)
    (hc : 2 ≤ prd &&& 0x1F ∧ prd &&& 0x1F ≤ 8)
    (hpage : page < (AT45_Init_switch g0 prd edi).Pages)
    (ho : o < (AT45_Init_switch g0 prd edi).PageSize) :
    page * 2 ^ (AT45_Init_switch g0 prd edi).Shift + o < 2 ^ 24 := by
  obtain ⟨h1, h2, -, -⟩ := AT45_Init_switch_bounds g0 prd edi hc
  have h3 : (page + 1) * 2 ^ (AT45_Init_switch g0 prd edi).Shift ≤
      (AT45_Init_switch g0 prd edi).Pages * 2 ^ (AT45_Init_switch g0 prd edi).Shift :=
    Nat.mul_le_mul_right _ hpage
  rw [Nat.add_mul, Nat.one_mul] at h3
  omega

/-- C21: for every geometry `AT45_Init` stores from its table (manufacturer 0x1F,
family 0x20, capacity code 0x02..0x08, either page-size setting), all pages
`p1, p2 < Pages` and offsets `o1, o2 < PageSize`: `(p << Shift) + o` is below
`2 ^ 24`, so it is the 32-bit linear address and no bit is lost in three bytes;
equal values, and equally equal address bytes on the wire, force `p1 = p2` and
`o1 = o2`. -/
theorem table_addresses_unique (d : Device σ) (w : World σ)
    (r0 mnf prd b3 b4 edi p1 o1 p2 o2 : Nat)
    (hresp : (AT45_Init d w).2.trace = w.trace ++ idTransaction r0 mnf prd b3 b4 edi)
    (hmnf : mnf = 0x1F) (hfam : prd &&& 0xE0 = 0x20)
    (hcap : 0x02 ≤ prd &&& 0x1F ∧ prd &&& 0x1F ≤ 0x08)
    (hp1 : p1 < (AT45_Init d w).2.AT45.Pages) (ho1 : o1 < (AT45_Init d w).2.AT45.PageSize)
    (hp2 : p2 < (AT45_Init d w).2.AT45.Pages) (ho2 : o2 < (AT45_Init d w).2.AT45.PageSize) :
    (p1 <<< (AT45_Init d w).2.AT45.Shift) + o1 < 2 ^ 24 ∧
    linearAddress (AT45_Init d w).2.AT45 p1 o1 = (p1 <<< (AT45_Init d w).2.AT45.Shift) + o1 ∧
    ((p1 <<< (AT45_Init d w).2.AT45.Shift) + o1 = (p2 <<< (AT45_Init d w).2.AT45.Shift) + o2 →
      p1 = p2 ∧ o1 = o2) ∧
    (addressBytes (linearAddress (AT45_Init d w).2.AT45 p1 o1) =
        addressBytes (linearAddress (AT45_Init d w).2.AT45 p2 o2) →
      p1 = p2 ∧ o1 = o2) := by
  have hrun := (AT45_Init_of_trace d w r0 mnf prd b3 b4 edi hresp).2
  have hcond : mnf = AT45DB_MANUFACTURER ∧
      prd &&& AT45DB_DEVID1_FAMMSK = AT45DB_DEVID1_DFLASH := ⟨hmnf, hfam⟩
  rw [if_pos hcond] at hrun
  rw [hrun] at hp1 ho1 hp2 ho2 ⊢
  obtain ⟨-, hle, -, -⟩ := AT45_Init_switch_bounds w.AT45 prd edi hcap
  have hl1 := in_page_address_lt w.AT45 prd edi p1 o1 hcap hp1 ho1
  have hl2 := in_page_address_lt w.AT45 prd edi p2 o2 hcap hp2 ho2
  have ha1 : linearAddress (AT45_Init_switch w.AT45 prd edi) p1 o1 =
      p1 * 2 ^ (AT45_Init_switch w.AT45 prd edi).Shift + o1 := by
    unfold linearAddress
    exact Nat.mod_eq_of_lt (by omega)
  have ha2 : linearAddress (AT45_Init_switch w.AT45 prd edi) p2 o2 =
      p2 * 2 ^ (AT45_Init_switch w.AT45 prd edi).Shift + o2 := by
    unfold linearAddress
    exact Nat.mod_eq_of_lt (by omega)
  simp only [Nat.shiftLeft_eq]
  refine ⟨hl1, ha1, ?_, ?_⟩
  · intro h
    exact page_offset_unique _ p1 o1 p2 o2 (by omega) (by omega) h
  · intro h
    have heq := addressBytes_injective _ _ (by rw [ha1]; exact hl1) (by rw [ha2]; exact hl2) h
    rw [ha1, ha2] at heq
    exact page_offset_unique _ p1 o1 p2 o2 (by omega) (by omega) heq

/-- Witness for C21: the last byte of the last page of the 64 Mbit chip in native
page mode, the largest address of the table (0xFFFC1F). -/
theorem table_addresses_unique_witness :
    (8191 <<< (AT45_Init scripted
        (startWorld [0xFF, 0x1F, 0x28, 0x00, 0x01, 0x00])).2.AT45.Shift) + 1055 < 2 ^ 24 :=
  (table_addresses_unique scripted (startWorld [0xFF, 0x1F, 0x28, 0x00, 0x01, 0x00])
    0xFF 0x1F 0x28 0x00 0x01 0x00 8191 1055 0 0
    (by decide) (by decide) (by decide) (by decide)
    (by decide) (by decide) (by decide) (by decide)).1


theorem mod_mod_32_16 (n : Nat) : n % 2 ^ 32 % 65536 % 65536 = n % 65536 := by
  omega

/-- C22: for every `block`, `off` and `size` (32-bit values in particular),
`block_device_read` and `block_device_prog` return 0 and move exactly `min (size mod 65536) PageSize`
data bytes, after an opcode followed by the address bytes of
`((block mod 65536) << Shift) + (off mod 65536)`; in particular a request with
`size = 65536` moves no data byte at all. -/
theorem block_device_narrows_before_clamp (d : Device σ) (fuel : Nat) (w w1 : World σ)
    (block off size : Nat) (buffer : List Nat)
    (hres : AT45_Resume d fuel w = some w1) :
    (∃ r cmd, block_device_read d fuel w block off buffer size = some r ∧ r.1 = 0 ∧
      r.2.2.trace = w1.trace ++ BusEvent.cs false :: cmd ∧
      (sentBytes cmd).take 4 = AT45DB_RDARRAYHF ::
        addressBytes (linearAddress w.AT45 (block % 65536) (off % 65536)) ∧
      (receivedBytes cmd).length = min (size % 65536) w.AT45.PageSize ∧
      (size = 65536 → (receivedBytes cmd).length = 0)) ∧
    (∃ r cmd, block_device_prog d fuel w block off buffer size = some r ∧ r.1 = 0 ∧
      r.2.trace = w1.trace ++ BusEvent.cs false :: cmd ∧
      (sentBytes cmd).take 4 = AT45DB_MNTHRUBF1 ::
        addressBytes (linearAddress w.AT45 (block % 65536) (off % 65536)) ∧
      ((sentBytes cmd).drop 4).length = min (size % 65536) w.AT45.PageSize ∧
      (size = 65536 → ((sentBytes cmd).drop 4).length = 0)) := by
  obtain ⟨hrd, hpr, -⟩ := block_device_narrowing d fuel w block off size buffer
  refine ⟨?_, ?_⟩
  · obtain ⟨r, q, data, hr, -, hq, hdata, -, htr⟩ :=
      AT45_ReadPage_run d fuel w w1 (block % 2 ^ 32 % 65536) (off % 2 ^ 32 % 65536)
        (size % 2 ^ 32 % 65536) buffer hres
    rw [mod_mod_32_16] at hdata
    rw [mod_mod_32_16, mod_mod_32_16] at htr
    obtain ⟨q0, q1, q2, q3, q4, rfl⟩ : ∃ q0 q1 q2 q3 q4, q = [q0, q1, q2, q3, q4] := by
      match q, hq with
      | [q0, q1, q2, q3, q4], _ => exact ⟨q0, q1, q2, q3, q4, rfl⟩
    have hlen : (receivedBytes (List.zipWith BusEvent.spi
        (AT45DB_RDARRAYHF ::
          (addressBytes (linearAddress w.AT45 (block % 65536) (off % 65536)) ++ [0]))
        [q0, q1, q2, q3, q4] ++ data.map BusEvent.recv ++ [BusEvent.cs true])).length =
        min (size % 65536) w.AT45.PageSize := by
      rw [receivedBytes_append, receivedBytes_append, receivedBytes_zipWith,
        receivedBytes_map_recv]
      simp [receivedBytes, hdata]
    refine ⟨(0, r.1, r.2), _, by rw [hrd, hr]; rfl, rfl, htr, ?_, hlen, ?_⟩
    · simp [addressBytes, sentBytes]
    · intro h65
      rw [hlen, h65]
      exact Nat.zero_min _
  · obtain ⟨w2, q, rs, hw, -, hq, hrs, htr⟩ :=
      AT45_WritePage_run d fuel w w1 (block % 2 ^ 32 % 65536) (off % 2 ^ 32 % 65536)
        (size % 2 ^ 32 % 65536) buffer hres
    rw [mod_mod_32_16] at hrs
    rw [mod_mod_32_16, mod_mod_32_16, mod_mod_32_16] at htr
    have htake := sentBytes_header_take
      (AT45DB_MNTHRUBF1 :: addressBytes (linearAddress w.AT45 (block % 65536) (off % 65536))) q
      (List.zipWith BusEvent.spi
        (bufferBytes buffer 0 (min (size % 65536) w.AT45.PageSize)) rs ++ [BusEvent.cs true])
      (by simp [addressBytes, hq])
    have hdrop := sentBytes_header_drop
      (AT45DB_MNTHRUBF1 :: addressBytes (linearAddress w.AT45 (block % 65536) (off % 65536))) q
      (List.zipWith BusEvent.spi
        (bufferBytes buffer 0 (min (size % 65536) w.AT45.PageSize)) rs ++ [BusEvent.cs true])
      (by simp [addressBytes, hq])
    have h4 : (AT45DB_MNTHRUBF1 ::
        addressBytes (linearAddress w.AT45 (block % 65536) (off % 65536))).length = 4 := rfl
    rw [h4] at htake hdrop
    have hlen : ((sentBytes (List.zipWith BusEvent.spi
        (AT45DB_MNTHRUBF1 :: addressBytes (linearAddress w.AT45 (block % 65536) (off % 65536)))
        q ++ List.zipWith BusEvent.spi
          (bufferBytes buffer 0 (min (size % 65536) w.AT45.PageSize)) rs ++
        [BusEvent.cs true])).drop 4).length = min (size % 65536) w.AT45.PageSize := by
      rw [List.append_assoc, hdrop, sentBytes_append,
        sentBytes_zipWith _ _ (by rw [bufferBytes_length, hrs])]
      simp [sentBytes, bufferBytes_length]
    refine ⟨(0, w2), _, by rw [hpr, hw]; rfl, rfl, htr, ?_, hlen, ?_⟩
    · rw [List.append_assoc]
      exact htake
    · intro h65
      rw [hlen, h65]
      exact Nat.zero_min _

/-- Witness for C22: a read of 65536 bytes at block 65539, offset 65541 is sent
as page 3, offset 5. -/
theorem block_device_narrows_before_clamp_witness :
    ∃ r cmd,
      block_device_read scripted 1
        (worldWith { FlashSize_MBit := 16, PageSize := 528, Pages := 4096, Shift := 10 }
          [0x00, 0x00, 0x80, 0x00]) 65539 65541 [] 65536 = some r ∧ r.1 = 0 ∧
      (sentBytes cmd).take 4 = [0x0B, 0x00, 0x0C, 0x05] ∧
      (receivedBytes cmd).length = 0 := by
  obtain ⟨r, cmd, h1, h2, -, h4, -, h6⟩ := (block_device_narrows_before_clamp scripted 1
    (worldWith { FlashSize_MBit := 16, PageSize := 528, Pages := 4096, Shift := 10 }
      [0x00, 0x00, 0x80, 0x00])
    ((AT45_Resume scripted 1
      (worldWith { FlashSize_MBit := 16, PageSize := 528, Pages := 4096, Shift := 10 }
        [0x00, 0x00, 0x80, 0x00])).getD (startWorld []))
    65539 65541 65536 [] (by decide)).1
  exact ⟨r, cmd, h1, h2, h4.trans (by decide), h6 rfl⟩

theorem AT45_Init_switch_capacity (g0 : AT45_t) (prd edi : Nat)
    (hc : 2 ≤ prd &&& 0x1F ∧ prd &&& 0x1F ≤ 8) :
    (edi &&& 1 = 1 →
      (AT45_Init_switch g0 prd edi).Pages * (AT45_Init_switch g0 prd edi).PageSize * 8 =
        (AT45_Init_switch g0 prd edi).FlashSize_MBit * 2 ^ 20) ∧
    (edi &&& 1 = 0 →
      (AT45_Init_switch g0 prd edi).Pages * (AT45_Init_switch g0 prd edi).PageSize * 8 * 32 =
        (AT45_Init_switch g0 prd edi).FlashSize_MBit * 2 ^ 20 * 33) ∧
    (prd &&& 0x1F = 8 →
      (AT45_Init_switch g0 prd edi).FlashSize_MBit = 64 ∧
      (AT45_Init_switch g0 prd edi).Pages = 8192 ∧
      (AT45_Init_switch g0 prd edi).PageSize = if edi &&& 1 = 1 then 1024 else 1056) := by
  have he : edi &&& 1 = 0 ∨ edi &&& 1 = 1 := by
    have := Nat.and_le_right (n := edi) (m := 1); omega
  unfold AT45_Init_switch
  simp only [AT45DB_DEVID1_CAPMSK]
  generalize prd &&& 0x1F = c at *
  obtain ⟨h1, h2⟩ := hc
  interval_cases c <;> rcases he with he | he <;> simp [he]

/-- C23: for each of the seven capacity codes, the row `AT45_Init` stores agrees
with the capacity it records: with the reduced page size
`Pages * PageSize * 8 = FlashSize_MBit * 2 ^ 20`, with the native page size
`Pages * PageSize * 8 * 32 = FlashSize_MBit * 2 ^ 20 * 33`; the 64 Mbit row (code
0x08) is 8192 pages of 1024 or 1056 bytes. -/
theorem table_rows_match_capacity (d : Device σ) (w : World σ)
    (r0 mnf prd b3 b4 edi : Nat)
    (hresp : (AT45_Init d w).2.trace = w.trace ++ idTransaction r0 mnf prd b3 b4 edi)
    (hmnf : mnf = 0x1F) (hfam : prd &&& 0xE0 = 0x20)
    (hcap : 0x02 ≤ prd &&& 0x1F ∧ prd &&& 0x1F ≤ 0x08) :
    (edi &&& 1 = 1 →
      (AT45_Init d w).2.AT45.Pages * (AT45_Init d w).2.AT45.PageSize * 8 =
        (AT45_Init d w).2.AT45.FlashSize_MBit * 2 ^ 20) ∧
    (edi &&& 1 = 0 →
      (AT45_Init d w).2.AT45.Pages * (AT45_Init d w).2.AT45.PageSize * 8 * 32 =
        (AT45_Init d w).2.AT45.FlashSize_MBit * 2 ^ 20 * 33) ∧
    (prd &&& 0x1F = 0x08 →
      (AT45_Init d w).2.AT45.FlashSize_MBit = 64 ∧
      (AT45_Init d w).2.AT45.Pages = 8192 ∧
      (AT45_Init d w).2.AT45.PageSize = if edi &&& 1 = 1 then 1024 else 1056) := by
  have hrun := (AT45_Init_of_trace d w r0 mnf prd b3 b4 edi hresp).2
  have hcond : mnf = AT45DB_MANUFACTURER ∧
      prd &&& AT45DB_DEVID1_FAMMSK = AT45DB_DEVID1_DFLASH := ⟨hmnf, hfam⟩
  rw [if_pos hcond] at hrun
  rw [hrun]
  exact AT45_Init_switch_capacity w.AT45 prd edi hcap

/-- Witness for C23: the 64 Mbit row in native page mode,
8192 * 1056 * 8 * 32 = 64 * 2 ^ 20 * 33. -/
theorem table_rows_match_capacity_witness :
    (AT45_Init scripted (startWorld [0xFF, 0x1F, 0x28, 0x00, 0x01, 0x00])).2.AT45.Pages *
        (AT45_Init scripted (startWorld [0xFF, 0x1F, 0x28, 0x00, 0x01, 0x00])).2.AT45.PageSize *
        8 * 32 =
      (AT45_Init scripted
        (startWorld [0xFF, 0x1F, 0x28, 0x00, 0x01, 0x00])).2.AT45.FlashSize_MBit * 2 ^ 20 * 33 :=
  (table_rows_match_capacity scripted (startWorld [0xFF, 0x1F, 0x28, 0x00, 0x01, 0x00])
    0xFF 0x1F 0x28 0x00 0x01 0x00 (by decide) (by decide) (by decide) (by decide)).2.1
    (by decide)

end AT45DB
